import Mathlib

/-!
uDMX MATLAB commander: the `send` entry point of `dmx.c`.

A shallow embedding of `mexFunction` from `src/dmx.c`.

Modelling conventions.

* A MATLAB array (`mxArray`) is a record of the facts the code queries: whether it is a
  character array, whether it is numeric, its dimension vector, its text (character arrays)
  and its elements in storage order.  The code reads the elements through an `mxDouble *`;
  the elements modelled here are the integer-valued doubles, held as `Int`.  On those the
  floating-point comparison `a[i] - a[i-1] != 1` agrees with the integer one.
* `mexErrMsgTxt` does not return: it ends the call.  A call therefore ends either with an
  error (`Except.error`) or normally with the value left in `plhs[0]`, if any.
* The conversions `(USHORT) x` and `(UCHAR) x` of a double discard the fractional part and
  are exact when the result fits the target type.  Outside it C leaves the conversion
  undefined; the value taken is that of the x86 builds of this Windows program, which
  convert to a signed 32-bit integer and keep its low 16 or 8 bits: the integral part
  reduced modulo `2^16` or `2^8` while it fits 32 bits, and 0 beyond.  Arithmetic on
  `USHORT` variables is done in `int` and reduced modulo `2^16` when stored.
* The libusbK driver is a record of answers (`Driver`); every call made to it is logged in
  order (`UsbCall`).
-/

namespace UDmx

/-! ## MATLAB arrays -/

/-- The facts about an `mxArray` that `dmx.c` inspects. -/
structure MxArray where
  /-- answer of `mxIsChar` -/
  isChar : Bool
  /-- answer of `mxIsNumeric` -/
  isNumeric : Bool
  /-- the dimension vector -/
  dims : List Nat
  /-- the characters of a character array -/
  text : String
  /-- the elements, in storage order, as read through `mxGetData` -/
  data : List Int

def mxIsChar (a : MxArray) : Bool := a.isChar

def mxIsNumeric (a : MxArray) : Bool := a.isNumeric

def mxGetNumberOfDimensions (a : MxArray) : Nat := a.dims.length

def mxGetNumberOfElements (a : MxArray) : Nat := a.dims.foldr (· * ·) 1

def mxIsEmpty (a : MxArray) : Bool := mxGetNumberOfElements a == 0

/-- Number of rows: the first dimension. -/
def mxGetM (a : MxArray) : Nat := a.dims.headD 0

/-- Number of columns: the product of the remaining dimensions. -/
def mxGetN (a : MxArray) : Nat := a.dims.tail.foldr (· * ·) 1

/-- Element `i` behind the pointer returned by `mxGetData`. -/
def mxGetData (a : MxArray) (i : Nat) : Int := a.data.getD i 0

/-- The call `mxGetString(a, buf, buflen)` fails when the text and its terminating NUL
do not fit into `buflen` bytes. -/
def mxGetString_fails (a : MxArray) (buflen : Nat) : Bool := decide (buflen < a.text.length + 1)

/-- A MATLAB character row vector, such as `'send'`. -/
def mxString (s : String) : MxArray :=
  { isChar := true, isNumeric := false, dims := [1, s.length], text := s, data := [] }

/-- A MATLAB double vector with the given elements, as a column (`n`-by-1) or as a row
(1-by-`n`). -/
def mxVector (column : Bool) (xs : List Int) : MxArray :=
  { isChar := false, isNumeric := true,
    dims := if column then [xs.length, 1] else [1, xs.length],
    text := "", data := xs }

/-! ## Constants and the USB side -/

def UDMX_VENDOR_ID : Int := 0x16c0

def UDMX_PRODUCT_ID : Int := 0x05dc

/-- Modelled from the spec: the header `uDMX_cmds.h` that defines the opcode is not among
the sources.  The spec calls it the fixed "set channel range" opcode; the value 2 is the one
the comments of `dmx.c` give for it (`cmd_setChannelRange (decimal 2)`). -/
def cmd_SetChannelRange : Int := 2

/-- The fields of the setup packet, after `memset(&Pkt, 0, sizeof(Pkt))`. -/
structure KUSB_SETUP_PACKET where
  BmRequest_Recipient : Int
  BmRequest_Type : Int
  BmRequest_Dir : Int
  Request : Int
  Value : Int
  Index : Int
  Length : Int
  deriving DecidableEq, Repr

/-- The calls `dmx.c` makes into libusbK.  A control transfer is logged with its setup
packet, the bytes written into the buffer it is handed, and its `BufferLength`. -/
inductive UsbCall where
  | LstK_Init
  | LstK_Count
  | LstK_Enumerate
  | LstK_Free
  | LstK_FindByVidPid (vid pid : Int)
  | LibK_LoadDriverAPI
  | Usb_Init
  | UsbK_ControlTransfer (Pkt : KUSB_SETUP_PACKET) (Buffer : List Int) (BufferLength : Int)
  | Usb_Free
  deriving DecidableEq, Repr

/-- The answers of the driver and of the device. -/
structure Driver where
  /-- whether `LstK_Init` succeeds -/
  LstK_Init : Bool
  /-- the device count `LstK_Count` stores -/
  LstK_Count : Nat
  /-- whether `LstK_FindByVidPid` finds the device -/
  LstK_FindByVidPid : Int → Int → Bool
  /-- whether `Usb.Init` opens the device -/
  Usb_Init : Bool
  /-- the `BOOL` returned by `UsbK_ControlTransfer` -/
  UsbK_ControlTransfer : KUSB_SETUP_PACKET → List Int → Int → Bool

/-- The error messages of `mexFunction`, one constructor per `mexErrMsgTxt` text. -/
inductive MexError where
  /-- Message "This function needs at least one input argument!" -/
  | noInputArgument
  /-- Message "The first argument is a function name string." -/
  | functionNameNotString
  /-- Message "The funcion name is suspiciosly too long." -/
  | functionNameTooLong
  /-- Message "An error occured getting the device list." -/
  | deviceListFailed
  /-- Message "No USB device that uses libusbK was detected." -/
  | noUsbDevice
  /-- Message "Could not find the uDMX device." -/
  | deviceNotFound
  /-- Message "Failed to open device." -/
  | openFailed
  /-- Message "This function needs exactly three arguments." -/
  | argumentCount
  /-- Message "Addresses must be numbers." -/
  | addressesNotNumeric
  /-- Message "Data values must be numbers." -/
  | dataNotNumeric
  /-- Message "Addresses must be packed into a vector." -/
  | addressesDimensions
  /-- Message "Data values must be packed into a vector." -/
  | dataDimensions
  /-- Message "The address and data array do not have the same number of elements." -/
  | lengthMismatch
  /-- Message "You only can have 512 elements in a DMX512 frame." -/
  | frameSize
  /-- Message "Addresses must not be empty." -/
  | addressesEmpty
  /-- Message "Data values must not be empty." -/
  | dataEmpty
  /-- Message "The addresses must be in a vector." -/
  | addressesNotVector
  /-- Message "The data valaues must be in a vector." -/
  | dataNotVector
  /-- Message "The addresses must increase one by one." -/
  | notContiguous
  deriving DecidableEq, Repr

/-- One call of `mexFunction`: the driver calls it made, in order, and how it ended: with an
error, or normally with the logical scalar stored in `plhs[0]` (if one was stored). -/
structure Run where
  calls : List UsbCall
  result : Except MexError (Option Bool)

/-! ## The sanity checks and the data preparation of `send` -/

/-- The loop `for (i = 1; i < n; i++) if (a[i] - a[i-1] != 1) mexErrMsgTxt(...)`:
true when some step raises the error. -/
def notIncreasingOneByOne (addresses : MxArray) (n : Nat) : Bool :=
  (List.range' 1 (n - 1)).any fun i => mxGetData addresses i - mxGetData addresses (i - 1) != 1

/-- The sanity checks of the `send` block (lines 504-569), in source order.  They end with
the two input arrays when every check passes. -/
def sanityChecks (prhs : List MxArray) : Except MexError (MxArray × MxArray) :=
  match prhs with
  | [_, addresses, data_values] =>
    if !mxIsNumeric addresses then .error .addressesNotNumeric
    else if !mxIsNumeric data_values then .error .dataNotNumeric
    else if mxGetNumberOfDimensions addresses > 2 then .error .addressesDimensions
    else if mxGetNumberOfDimensions data_values > 2 then .error .dataDimensions
    else
      let no_of_elements_address := mxGetNumberOfElements addresses
      let no_of_elements_data := mxGetNumberOfElements data_values
      if no_of_elements_address != no_of_elements_data then .error .lengthMismatch
      else if no_of_elements_address > 512 then .error .frameSize
      else if mxIsEmpty addresses then .error .addressesEmpty
      else if mxIsEmpty data_values then .error .dataEmpty
      else if mxGetM addresses != 1 && mxGetN addresses != 1 then .error .addressesNotVector
      else if mxGetM data_values != 1 && mxGetN data_values != 1 then .error .dataNotVector
      else if notIncreasingOneByOne addresses no_of_elements_address then .error .notContiguous
      else .ok (addresses, data_values)
  | _ => .error .argumentCount

/-- What the data preparation of `send` leaves behind: the range parameters and the
elements written into `data_values_converted` (its first `n` elements; the rest of the
512-element array is never written). -/
structure ChannelRange where
  start_address : Int
  no_of_channels : Int
  data_values_converted : List Int
  deriving DecidableEq, Repr

/-- The cast `(USHORT) x` of a double with integral part `x`: the low 16 bits of `x` as a
signed 32-bit integer, and 0 when `x` does not fit 32 bits.  It is `x` itself for
`0 ≤ x ≤ 65535`, the only case C defines. -/
def castUSHORT (x : Int) : Int :=
  if -2147483648 ≤ x ∧ x ≤ 2147483647 then x % 65536 else 0

/-- The cast `(UCHAR) x` of a double with integral part `x`: the low 8 bits of `x` as a
signed 32-bit integer, and 0 when `x` does not fit 32 bits.  It is `x` itself for
`0 ≤ x ≤ 255`, the only case C defines. -/
def castUCHAR (x : Int) : Int :=
  if -2147483648 ≤ x ∧ x ≤ 2147483647 then x % 256 else 0

/-- The copy loop and the range derivation (lines 571-599). -/
def convert (addresses data_values : MxArray) : ChannelRange :=
  let no_of_elements_address := mxGetNumberOfElements addresses
  let addresses_converted : List Int :=
    (List.range no_of_elements_address).map fun i =>
      (castUSHORT (mxGetData addresses i) - 1) % 65536
  let data_values_converted : List Int :=
    (List.range no_of_elements_address).map fun i => castUCHAR (mxGetData data_values i)
  if no_of_elements_address > 1 then
    let start_address := addresses_converted.getD 0 0
    let end_address := addresses_converted.getD (no_of_elements_address - 1) 0
    { start_address := start_address
      no_of_channels := (end_address - start_address + 1) % 65536
      data_values_converted := data_values_converted }
  else
    { start_address := addresses_converted.getD 0 0
      no_of_channels := 1
      data_values_converted := data_values_converted }

/-- Sanity checks followed by the data preparation: the request `send` derives from its
arguments, or the error of the first check that fails. -/
def channelRange (prhs : List MxArray) : Except MexError ChannelRange :=
  match sanityChecks prhs with
  | .error e => .error e
  | .ok (addresses, data_values) => .ok (convert addresses data_values)

/-- The setup packet filled in at lines 635-641 (and 336-342). -/
def setupPacket (no_of_channels start_address : Int) : KUSB_SETUP_PACKET :=
  { BmRequest_Recipient := 0
    BmRequest_Type := 2
    BmRequest_Dir := 0
    Request := cmd_SetChannelRange % 256
    Value := no_of_channels % 4294967296 % 65536
    Index := start_address % 65536
    Length := no_of_channels % 65536 }

/-! ## The entry points -/

/-- Block `dmx('list')`. -/
def listBlock (usb : Driver) : Run :=
  if usb.LstK_Count = 0 then
    { calls := [.LstK_Count, .LstK_Free], result := .error .noUsbDevice }
  else
    { calls := [.LstK_Count, .LstK_Enumerate], result := .ok none }

/-- Block `dmx('devicetest')`. -/
def devicetestBlock (usb : Driver) : Run :=
  let isPresent := false
  if !usb.LstK_FindByVidPid UDMX_VENDOR_ID UDMX_PRODUCT_ID then
    { calls := [.LstK_FindByVidPid UDMX_VENDOR_ID UDMX_PRODUCT_ID],
      result := .error .deviceNotFound }
  else if !usb.Usb_Init then
    { calls := [.LstK_FindByVidPid UDMX_VENDOR_ID UDMX_PRODUCT_ID, .LibK_LoadDriverAPI,
                .Usb_Init],
      result := .error .openFailed }
  else
    { calls := [.LstK_FindByVidPid UDMX_VENDOR_ID UDMX_PRODUCT_ID, .LibK_LoadDriverAPI,
                .Usb_Init, .Usb_Free, .LstK_Free],
      result := .ok (some isPresent) }

/-- Opening the device, one control transfer of `no_of_channels` bytes from the buffer,
closing the device, and `plhs[0] = mxCreateLogicalScalar(!success)`: the common tail of
the `commtest` block (lines 211-368) and of the `send` block (lines 613-654). -/
def transferBlock (usb : Driver) (r : ChannelRange) : Run :=
  if !usb.LstK_FindByVidPid UDMX_VENDOR_ID UDMX_PRODUCT_ID then
    { calls := [.LstK_FindByVidPid UDMX_VENDOR_ID UDMX_PRODUCT_ID],
      result := .error .deviceNotFound }
  else if !usb.Usb_Init then
    { calls := [.LstK_FindByVidPid UDMX_VENDOR_ID UDMX_PRODUCT_ID, .LibK_LoadDriverAPI,
                .Usb_Init],
      result := .error .openFailed }
  else
    let Pkt := setupPacket r.no_of_channels r.start_address
    let BufferLength := r.no_of_channels % 4294967296
    let success := usb.UsbK_ControlTransfer Pkt r.data_values_converted BufferLength
    { calls := [.LstK_FindByVidPid UDMX_VENDOR_ID UDMX_PRODUCT_ID, .LibK_LoadDriverAPI,
                .Usb_Init, .UsbK_ControlTransfer Pkt r.data_values_converted BufferLength,
                .Usb_Free, .LstK_Free],
      result := .ok (some (!success)) }

/-- The test data of `dmx('commtest')` (lines 319-322). -/
def commtestData : ChannelRange :=
  { start_address := 99, no_of_channels := 5, data_values_converted := [10, 255, 255, 0, 0] }

/-- Block `dmx('commtest')`. -/
def commtestBlock (usb : Driver) : Run := transferBlock usb commtestData

/-- Block `dmx('inputtest')`: the same sanity checks, nothing is sent or returned. -/
def inputtestBlock (prhs : List MxArray) : Run :=
  match sanityChecks prhs with
  | .error e => { calls := [], result := .error e }
  | .ok _ => { calls := [], result := .ok none }

/-- Block `dmx('send', addresses, data_values)`. -/
def sendBlock (usb : Driver) (prhs : List MxArray) : Run :=
  match channelRange prhs with
  | .error e => { calls := [], result := .error e }
  | .ok r => transferBlock usb r

/-- The function `mexFunction` of `dmx.c`; `nrhs` is the length of `prhs`. -/
def mexFunction (usb : Driver) (prhs : List MxArray) : Run :=
  match prhs with
  | [] => { calls := [], result := .error .noInputArgument }
  | name :: _ =>
    if !mxIsChar name then { calls := [], result := .error .functionNameNotString }
    else if mxGetString_fails name 127 then { calls := [], result := .error .functionNameTooLong }
    else if !usb.LstK_Init then { calls := [.LstK_Init], result := .error .deviceListFailed }
    else
      let stringBuffer := name.text
      let block : Run :=
        if stringBuffer = "list" then listBlock usb
        else if stringBuffer = "devicetest" then devicetestBlock usb
        else if stringBuffer = "commtest" then commtestBlock usb
        else if stringBuffer = "inputtest" then inputtestBlock prhs
        else if stringBuffer = "send" then sendBlock usb prhs
        else { calls := [], result := .ok none }
      { calls := .LstK_Init :: block.calls, result := block.result }

/-- The bytes the first control transfer of a run sends: the first `BufferLength` bytes of
the array it is handed.  The logged buffer holds the bytes written into that array, so the
payload is known only when the transfer reads no further than those: a transfer that reads
more sends bytes that were never written, and has no payload here. -/
def transferredPayload : List UsbCall → Option (List Int)
  | [] => none
  | .UsbK_ControlTransfer _ Buffer BufferLength :: _ =>
    if BufferLength.toNat ≤ Buffer.length then some (Buffer.take BufferLength.toNat) else none
  | _ :: rest => transferredPayload rest

/-- A driver on which every call succeeds. -/
def okDriver : Driver :=
  { LstK_Init := true, LstK_Count := 1, LstK_FindByVidPid := fun _ _ => true,
    Usb_Init := true, UsbK_ControlTransfer := fun _ _ _ => true }

/-- A driver on which the device opens and the control transfer fails. -/
def failingTransferDriver : Driver :=
  { okDriver with UsbK_ControlTransfer := fun _ _ _ => false }

/-- The addresses 1, 2, ..., 512. -/
def allAddresses : List Int := (List.range 512).map fun (i : Nat) => (i : Int) + 1

/-- Whether a driver call is a control transfer. -/
def isControlTransfer : UsbCall → Bool
  | .UsbK_ControlTransfer _ _ _ => true
  | _ => false

/-! ## The two local arrays, with every access checked

`addresses_converted` and `data_values_converted` are local arrays of 512 elements.  Here
each is the list of its 512 cells, a cell holding the value written into it, if any; an
access has a result only when its index is one of the array and, for a read, when the cell
was written before. -/

/-- A local array of 512 elements before anything is written into it. -/
def newArray512 : List (Option Int) := List.replicate 512 none

/-- The write `cells[i] = x`: no result when `i` is not an index of the array. -/
def writeCell (cells : List (Option Int)) (i : Nat) (x : Int) : Option (List (Option Int)) :=
  if i < cells.length then some (cells.set i (some x)) else none

/-- The read `cells[i]`: no result when `i` is not an index of the array or the cell was
never written. -/
def readCell (cells : List (Option Int)) (i : Nat) : Option Int :=
  if i < cells.length then cells.getD i none else none

/-- The two arrays after the first `k` rounds of the copy loop (lines 572-580). -/
def copyLoop (addresses data_values : MxArray) :
    Nat → Option (List (Option Int) × List (Option Int))
  | 0 => some (newArray512, newArray512)
  | k + 1 =>
    match copyLoop addresses data_values k with
    | none => none
    | some (addresses_converted, data_values_converted) =>
      match writeCell addresses_converted k ((castUSHORT (mxGetData addresses k) - 1) % 65536),
        writeCell data_values_converted k (castUCHAR (mxGetData data_values k)) with
      | some addresses_written, some data_values_written =>
        some (addresses_written, data_values_written)
      | _, _ => none

/-- The reads `cells[0]`, ..., `cells[k - 1]` that a transfer of `k` bytes makes. -/
def readCells (cells : List (Option Int)) : Nat → Option (List Int)
  | 0 => some []
  | k + 1 =>
    match readCells cells k, readCell cells k with
    | some bytes, some x => some (bytes ++ [x])
    | _, _ => none

/-- The copy loop, the range derivation and the reads of the control transfer (lines
571-599 and 644) on the two arrays: the start address, the channel count and the bytes the
transfer reads.  There is no result when an index leaves its array or a cell is read that
was never written. -/
def convertChecked (addresses data_values : MxArray) : Option (Int × Int × List Int) :=
  let no_of_elements_address := mxGetNumberOfElements addresses
  match copyLoop addresses data_values no_of_elements_address with
  | none => none
  | some (addresses_converted, data_values_converted) =>
    let range : Option (Int × Int) :=
      if no_of_elements_address > 1 then
        match readCell addresses_converted 0,
          readCell addresses_converted (no_of_elements_address - 1) with
        | some start_address, some end_address =>
          some (start_address, (end_address - start_address + 1) % 65536)
        | _, _ => none
      else
        match readCell addresses_converted 0 with
        | some start_address => some (start_address, 1)
        | none => none
    match range with
    | none => none
    | some (start_address, no_of_channels) =>
      match readCells data_values_converted (no_of_channels % 4294967296).toNat with
      | some bytes => some (start_address, no_of_channels, bytes)
      | none => none

/-- The cells of an array of 512 elements whose first `k` cells were written with the
values `f 0`, ..., `f (k - 1)`. -/
def writtenCells (f : Nat → Int) (k : Nat) : List (Option Int) :=
  (List.range 512).map fun i => if i < k then some (f i) else none

/-! ## Elements with a fractional part

The value of a double is a rational number.  The definitions above hold the elements that
are whole numbers; the ones below take two double vectors with any elements, given by their
values.  The difference `a[i] - a[i-1]` is taken exactly, where the code rounds it to a
double.  The comparison with 1 comes out the same whenever the exact difference is itself
a double (as for -0.5 and 0.5), and for all doubles that are at least 1: these are
multiples of `2^-52`, and the only multiple of `2^-52` that rounds to 1 is 1.  Below 1 the
two can differ, and the facts proved from these definitions assume addresses of at least
1, or name the elements. -/

/-- The conversion of a double to an integer type discards the fractional part: the
numerator divided by the denominator, rounded toward zero. -/
def truncate (x : ℚ) : Int := x.num.tdiv x.den

/-- The monotonicity loop (lines 564-569) on double elements. -/
def notIncreasingOneByOne_double (addresses : List ℚ) (n : Nat) : Bool :=
  (List.range' 1 (n - 1)).any fun i => addresses.getD i 0 - addresses.getD (i - 1) 0 != 1

/-- The copy loop and the range derivation (lines 571-599) on double elements: the casts
`(USHORT)` and `(UCHAR)` truncate, then reduce to the width of the type. -/
def convert_double (addresses data_values : List ℚ) : ChannelRange :=
  let no_of_elements_address := addresses.length
  let addresses_converted : List Int :=
    (List.range no_of_elements_address).map fun i =>
      (castUSHORT (truncate (addresses.getD i 0)) - 1) % 65536
  let data_values_converted : List Int :=
    (List.range no_of_elements_address).map fun i =>
      castUCHAR (truncate (data_values.getD i 0))
  if no_of_elements_address > 1 then
    let start_address := addresses_converted.getD 0 0
    let end_address := addresses_converted.getD (no_of_elements_address - 1) 0
    { start_address := start_address
      no_of_channels := (end_address - start_address + 1) % 65536
      data_values_converted := data_values_converted }
  else
    { start_address := addresses_converted.getD 0 0
      no_of_channels := 1
      data_values_converted := data_values_converted }

/-- The sanity checks and the data preparation of `send` on two double vectors, given by
their elements.  The checks on the argument count, on the class and on the shape of the
arrays pass on two vectors; the others are those of lines 527-569, in source order. -/
def channelRange_double (addresses data_values : List ℚ) : Except MexError ChannelRange :=
  let no_of_elements_address := addresses.length
  let no_of_elements_data := data_values.length
  if no_of_elements_address != no_of_elements_data then .error .lengthMismatch
  else if no_of_elements_address > 512 then .error .frameSize
  else if no_of_elements_address == 0 then .error .addressesEmpty
  else if no_of_elements_data == 0 then .error .dataEmpty
  else if notIncreasingOneByOne_double addresses no_of_elements_address then
    .error .notContiguous
  else .ok (convert_double addresses data_values)

/-! ## Facts about vectors -/

theorem mxGetNumberOfElements_mxVector (c : Bool) (xs : List Int) :
    mxGetNumberOfElements (mxVector c xs) = xs.length := by
  cases c <;> simp [mxGetNumberOfElements, mxVector]

theorem mxIsNumeric_mxVector (c : Bool) (xs : List Int) :
    mxIsNumeric (mxVector c xs) = true := rfl

theorem mxGetNumberOfDimensions_mxVector (c : Bool) (xs : List Int) :
    mxGetNumberOfDimensions (mxVector c xs) = 2 := by
  cases c <;> rfl

theorem mxGetData_mxVector (c : Bool) (xs : List Int) (i : Nat) :
    mxGetData (mxVector c xs) i = xs.getD i 0 := rfl

theorem mxIsEmpty_mxVector (c : Bool) (xs : List Int) :
    mxIsEmpty (mxVector c xs) = (xs.length == 0) := by
  simp [mxIsEmpty, mxGetNumberOfElements_mxVector]

theorem shape_mxVector (c : Bool) (xs : List Int) :
    (mxGetM (mxVector c xs) != 1 && mxGetN (mxVector c xs) != 1) = false := by
  cases c <;> simp [mxGetM, mxGetN, mxVector]

/-- The sanity checks on two vectors: what is left of them. -/
theorem sanityChecks_mxVector (name : MxArray) (ca cv : Bool) (a v : List Int) :
    sanityChecks [name, mxVector ca a, mxVector cv v] =
      if a.length ≠ v.length then .error .lengthMismatch
      else if 512 < a.length then .error .frameSize
      else if a.length = 0 then .error .addressesEmpty
      else if notIncreasingOneByOne (mxVector ca a) a.length then .error .notContiguous
      else .ok (mxVector ca a, mxVector cv v) := by
  simp only [sanityChecks, mxIsNumeric_mxVector, mxGetNumberOfDimensions_mxVector,
    mxGetNumberOfElements_mxVector, mxIsEmpty_mxVector, shape_mxVector]
  by_cases h1 : a.length = v.length
  · have h1s : v.length = a.length := h1.symm
    by_cases h2 : 512 < a.length
    · simp [h1s, h2]
    · by_cases h3 : a.length = 0
      · simp [h1s, h3]
      · simp [h1s, h2, h3]
  · simp [h1]

/-! ## Contiguity -/

/-- The loop raises no error exactly when every step is 1. -/
theorem notIncreasingOneByOne_eq_false (c : Bool) (a : List Int) (n : Nat) :
    notIncreasingOneByOne (mxVector c a) n = false ↔
      ∀ i, 1 ≤ i → i < n → a.getD i 0 - a.getD (i - 1) 0 = 1 := by
  simp only [notIncreasingOneByOne, mxGetData_mxVector, List.any_eq_false, List.mem_range'_1,
    bne_iff_ne, ne_eq, not_not]
  constructor
  · intro h i h1 h2
    exact h i ⟨h1, by omega⟩
  · intro h i hi
    exact h i hi.1 (by omega)

/-- The loop raises the error exactly when some step is not 1. -/
theorem notIncreasingOneByOne_eq_true (c : Bool) (a : List Int) (n : Nat) :
    notIncreasingOneByOne (mxVector c a) n = true ↔
      ∃ i, 1 ≤ i ∧ i < n ∧ a.getD i 0 - a.getD (i - 1) 0 ≠ 1 := by
  rw [← Bool.not_eq_false, notIncreasingOneByOne_eq_false]
  push_neg
  rfl

/-- In a run of steps of 1, element `i` is the first element plus `i`. -/
theorem getD_of_steps (a : List Int) (n : Nat)
    (h : ∀ i, 1 ≤ i → i < n → a.getD i 0 - a.getD (i - 1) 0 = 1) :
    ∀ i, i < n → a.getD i 0 = a.getD 0 0 + i := by
  intro i
  induction i with
  | zero => intro _; simp
  | succ k ih =>
    intro hk
    have h1 := h (k + 1) (by omega) hk
    have h2 := ih (by omega)
    simp only [Nat.add_sub_cancel] at h1
    push_cast
    omega

/-! ## The data preparation on vectors -/

theorem getD_map_range (f : Nat → Int) (n i : Nat) (h : i < n) :
    ((List.range n).map f).getD i 0 = f i := by
  rw [List.getD_eq_getElem _ _ (by simpa using h)]
  simp

theorem map_range_getD (g : Int → Int) (v : List Int) :
    ((List.range v.length).map fun i => g (v.getD i 0)) = v.map g := by
  apply List.ext_getElem
  · simp
  · intro i h1 h2
    have h3 : i < v.length := by simpa using h2
    simp [List.getD_eq_getElem?_getD, List.getElem?_eq_getElem h3]

theorem castUSHORT_of_fits (x : Int) (h : -2147483648 ≤ x ∧ x ≤ 2147483647) :
    castUSHORT x = x % 65536 := by
  rw [castUSHORT, if_pos h]

theorem castUSHORT_bounds (x : Int) : 0 ≤ castUSHORT x ∧ castUSHORT x < 65536 := by
  unfold castUSHORT
  split <;> omega

theorem castUCHAR_of_byte (x : Int) (h : 0 ≤ x ∧ x ≤ 255) : castUCHAR x = x := by
  rw [castUCHAR, if_pos (by omega)]
  omega

theorem map_castUCHAR_of_bytes (v : List Int) (hv : ∀ y ∈ v, 0 ≤ y ∧ y ≤ 255) :
    v.map castUCHAR = v := by
  conv_rhs => rw [← List.map_id v]
  apply List.map_congr_left
  intro y hy
  simp only [id]
  exact castUCHAR_of_byte y (hv y hy)

theorem getD_mem_of_lt {α : Type} (l : List α) (d : α) (i : Nat) (h : i < l.length) :
    l.getD i d ∈ l := by
  rw [List.getD_eq_getElem _ _ h]
  exact List.getElem_mem _

theorem convert_start_address (ca cv : Bool) (a v : List Int) (h : 1 ≤ a.length) :
    (convert (mxVector ca a) (mxVector cv v)).start_address =
      (castUSHORT (a.getD 0 0) - 1) % 65536 := by
  simp only [convert, mxGetNumberOfElements_mxVector, mxGetData_mxVector]
  split <;> exact getD_map_range _ _ 0 h

theorem convert_data_values_converted (ca cv : Bool) (a v : List Int) (h : v.length = a.length) :
    (convert (mxVector ca a) (mxVector cv v)).data_values_converted = v.map castUCHAR := by
  simp only [convert, mxGetNumberOfElements_mxVector, mxGetData_mxVector, ← h]
  split <;> exact map_range_getD castUCHAR v

/-- On a contiguous run of at most 512 addresses that fit 32 bits the 16-bit channel count
is the number of addresses, also when the converted addresses wrap around. -/
theorem convert_no_of_channels (ca cv : Bool) (a v : List Int) (h1 : 1 ≤ a.length)
    (h512 : a.length ≤ 512)
    (hstep : ∀ i, 1 ≤ i → i < a.length → a.getD i 0 - a.getD (i - 1) 0 = 1)
    (hfits : ∀ x ∈ a, -2147483648 ≤ x ∧ x ≤ 2147483647) :
    (convert (mxVector ca a) (mxVector cv v)).no_of_channels = a.length := by
  simp only [convert, mxGetNumberOfElements_mxVector, mxGetData_mxVector]
  split
  · rename_i hn
    have hlast := getD_of_steps a a.length hstep (a.length - 1) (by omega)
    have hc : ((a.length - 1 : Nat) : Int) = (a.length : Int) - 1 := by omega
    have hf0 := hfits _ (getD_mem_of_lt a 0 0 (by omega))
    have hfl := hfits _ (getD_mem_of_lt a 0 (a.length - 1) (by omega))
    simp only [getD_map_range _ a.length 0 h1,
      getD_map_range _ a.length (a.length - 1) (by omega),
      castUSHORT_of_fits _ hf0, castUSHORT_of_fits _ hfl]
    rw [hlast, hc]
    omega
  · rename_i hn
    have : a.length = 1 := by omega
    simp [this]

/-- Both range parameters are 16-bit values. -/
theorem convert_bounds (addresses data_values : MxArray) :
    (0 ≤ (convert addresses data_values).start_address ∧
      (convert addresses data_values).start_address < 65536) ∧
    (0 ≤ (convert addresses data_values).no_of_channels ∧
      (convert addresses data_values).no_of_channels < 65536) := by
  have key : ∀ (l : List Int) (i : Nat), (∀ x ∈ l, 0 ≤ x ∧ x < 65536) →
      0 ≤ l.getD i 0 ∧ l.getD i 0 < 65536 := by
    intro l i hl
    by_cases hi : i < l.length
    · rw [List.getD_eq_getElem _ _ hi]
      exact hl _ (List.getElem_mem hi)
    · rw [List.getD_eq_default _ _ (by omega)]
      omega
  have hmem : ∀ x ∈ (List.range (mxGetNumberOfElements addresses)).map
      (fun i => (castUSHORT (mxGetData addresses i) - 1) % 65536), 0 ≤ x ∧ x < 65536 := by
    intro x hx
    obtain ⟨i, _, rfl⟩ := List.mem_map.1 hx
    omega
  have h0 := key _ 0 hmem
  simp only [convert]
  split
  · refine ⟨h0, ?_⟩
    dsimp only
    omega
  · refine ⟨h0, ?_⟩
    dsimp only
    omega

/-! ## The run of `send` -/

/-- The request derived from two vectors, check by check. -/
theorem channelRange_mxVector (name : MxArray) (ca cv : Bool) (a v : List Int) :
    channelRange [name, mxVector ca a, mxVector cv v] =
      if a.length ≠ v.length then .error .lengthMismatch
      else if 512 < a.length then .error .frameSize
      else if a.length = 0 then .error .addressesEmpty
      else if notIncreasingOneByOne (mxVector ca a) a.length then .error .notContiguous
      else .ok (convert (mxVector ca a) (mxVector cv v)) := by
  rw [channelRange, sanityChecks_mxVector]
  split_ifs <;> rfl

/-- Two vectors are accepted exactly when they have the same length between 1 and 512 and
the addresses go up in steps of 1. -/
theorem channelRange_mxVector_ok (name : MxArray) (ca cv : Bool) (a v : List Int)
    (r : ChannelRange) :
    channelRange [name, mxVector ca a, mxVector cv v] = .ok r ↔
      a.length = v.length ∧ a.length ≤ 512 ∧ 1 ≤ a.length ∧
      (∀ i, 1 ≤ i → i < a.length → a.getD i 0 - a.getD (i - 1) 0 = 1) ∧
      r = convert (mxVector ca a) (mxVector cv v) := by
  rw [channelRange_mxVector, ← notIncreasingOneByOne_eq_false ca a a.length]
  split_ifs with h1 h2 h3 h4
  · simp [h1]
  · simp; omega
  · simp; omega
  · simp [h4]
  · simp only [Except.ok.injEq]
    constructor
    · intro h
      exact ⟨by omega, by omega, by omega, by simpa using h4, h.symm⟩
    · intro h
      exact h.2.2.2.2.symm

/-- With the device list initialised, `dmx('send', ...)` runs the `send` block. -/
theorem mexFunction_send (usb : Driver) (args : List MxArray) (hinit : usb.LstK_Init = true) :
    mexFunction usb (mxString "send" :: args) =
      { calls := .LstK_Init :: (sendBlock usb (mxString "send" :: args)).calls,
        result := (sendBlock usb (mxString "send" :: args)).result } := by
  have hlen : "send".length ≤ 126 := by decide
  simp [mexFunction, mxString, mxIsChar, mxGetString_fails, hinit, hlen]

/-- The run of `dmx('send', ...)` on an accepted input when the device opens. -/
theorem mexFunction_send_accepted (usb : Driver) (args : List MxArray) (r : ChannelRange)
    (hacc : channelRange (mxString "send" :: args) = .ok r)
    (hinit : usb.LstK_Init = true)
    (hfind : usb.LstK_FindByVidPid UDMX_VENDOR_ID UDMX_PRODUCT_ID = true)
    (hopen : usb.Usb_Init = true) :
    mexFunction usb (mxString "send" :: args) =
      { calls := [.LstK_Init, .LstK_FindByVidPid UDMX_VENDOR_ID UDMX_PRODUCT_ID,
          .LibK_LoadDriverAPI, .Usb_Init,
          .UsbK_ControlTransfer (setupPacket r.no_of_channels r.start_address)
            r.data_values_converted (r.no_of_channels % 4294967296),
          .Usb_Free, .LstK_Free],
        result := .ok (some (!usb.UsbK_ControlTransfer
          (setupPacket r.no_of_channels r.start_address)
          r.data_values_converted (r.no_of_channels % 4294967296))) } := by
  rw [mexFunction_send usb args hinit]
  simp [sendBlock, hacc, transferBlock, hfind, hopen]

/-- The run of `dmx('send', ...)` on a rejected input. -/
theorem mexFunction_send_rejected (usb : Driver) (args : List MxArray) (e : MexError)
    (hrej : channelRange (mxString "send" :: args) = .error e)
    (hinit : usb.LstK_Init = true) :
    mexFunction usb (mxString "send" :: args) = { calls := [.LstK_Init], result := .error e } := by
  rw [mexFunction_send usb args hinit]
  simp [sendBlock, hrej]

/-! ## Elements with a fractional part: facts -/

theorem truncate_of_nonneg (x : ℚ) (h : 0 ≤ x) : truncate x = ⌊x⌋ := by
  rw [truncate, Int.tdiv_eq_ediv (Rat.num_nonneg.2 h) (Int.natCast_nonneg _), Rat.floor_def]

theorem truncate_intCast (n : Int) : truncate (n : ℚ) = n := by
  simp [truncate]

theorem map_range_getD_double (g : ℚ → Int) (v : List ℚ) :
    ((List.range v.length).map fun i => g (v.getD i 0)) = v.map g := by
  apply List.ext_getElem
  · simp
  · intro i h1 h2
    have h3 : i < v.length := by simpa using h2
    simp [List.getD_eq_getElem?_getD, List.getElem?_eq_getElem h3]

theorem notIncreasingOneByOne_double_eq_false (a : List ℚ) (n : Nat) :
    notIncreasingOneByOne_double a n = false ↔
      ∀ i, 1 ≤ i → i < n → a.getD i 0 - a.getD (i - 1) 0 = 1 := by
  simp only [notIncreasingOneByOne_double, List.any_eq_false, List.mem_range'_1,
    bne_iff_ne, ne_eq, not_not]
  constructor
  · intro h i h1 h2
    exact h i ⟨h1, by omega⟩
  · intro h i hi
    exact h i hi.1 (by omega)

theorem getD_of_steps_double (a : List ℚ) (n : Nat)
    (h : ∀ i, 1 ≤ i → i < n → a.getD i 0 - a.getD (i - 1) 0 = 1) :
    ∀ i, i < n → a.getD i 0 = a.getD 0 0 + i := by
  intro i
  induction i with
  | zero => intro _; simp
  | succ k ih =>
    intro hk
    have h1 := h (k + 1) (by omega) hk
    have h2 := ih (by omega)
    simp only [Nat.add_sub_cancel] at h1
    push_cast
    linarith

/-- On whole-number elements the definitions for double elements agree with those for
integer elements. -/
theorem channelRange_double_intCast (name : MxArray) (ca cv : Bool) (a v : List Int) :
    channelRange_double (a.map fun (x : Int) => (x : ℚ)) (v.map fun (x : Int) => (x : ℚ)) =
      channelRange [name, mxVector ca a, mxVector cv v] := by
  have hget : ∀ (l : List Int) (i : Nat),
      (l.map fun (x : Int) => (x : ℚ)).getD i 0 = ((l.getD i 0 : Int) : ℚ) := by
    intro l i
    simp only [List.getD_eq_getElem?_getD, List.getElem?_map]
    cases l[i]? <;> simp
  have hnot : notIncreasingOneByOne_double (a.map fun (x : Int) => (x : ℚ)) a.length =
      notIncreasingOneByOne (mxVector ca a) a.length := by
    simp only [notIncreasingOneByOne_double, notIncreasingOneByOne, mxGetData_mxVector, hget]
    congr 1
    funext i
    rw [← Int.cast_sub, Bool.eq_iff_iff]
    simp only [bne_iff_ne, ne_eq]
    rw [← Int.cast_one, Int.cast_inj]
  have hconv : convert_double (a.map fun (x : Int) => (x : ℚ)) (v.map fun (x : Int) => (x : ℚ)) =
      convert (mxVector ca a) (mxVector cv v) := by
    simp only [convert_double, convert, mxGetNumberOfElements_mxVector, mxGetData_mxVector,
      hget, truncate_intCast, List.length_map]
  rw [channelRange_mxVector]
  simp only [channelRange_double, List.length_map, hnot, hconv, bne_iff_ne, ne_eq,
    beq_iff_eq, gt_iff_lt, ite_not]
  by_cases h1 : a.length = v.length
  · by_cases h2 : 512 < a.length
    · simp [h1.symm, h2]
    · by_cases h3 : a.length = 0
      · simp [h1.symm, h3]
      · simp [h1.symm, h2, h3]
  · simp [h1]

/-- Two double vectors are accepted exactly when they have the same length between 1 and
512 and the addresses go up in steps of 1. -/
theorem channelRange_double_ok (a v : List ℚ) (r : ChannelRange) :
    channelRange_double a v = .ok r ↔
      a.length = v.length ∧ a.length ≤ 512 ∧ 1 ≤ a.length ∧
      (∀ i, 1 ≤ i → i < a.length → a.getD i 0 - a.getD (i - 1) 0 = 1) ∧
      r = convert_double a v := by
  rw [← notIncreasingOneByOne_double_eq_false a a.length]
  simp only [channelRange_double, bne_iff_ne, ne_eq, beq_iff_eq, gt_iff_lt, ite_not]
  generalize notIncreasingOneByOne_double a a.length = b
  by_cases h1 : a.length = v.length
  · rw [if_pos h1]
    by_cases h2 : 512 < a.length
    · rw [if_pos h2]
      simp only [reduceCtorEq, false_iff, not_and]
      omega
    · rw [if_neg h2]
      by_cases h3 : a.length = 0
      · rw [if_pos h3]
        simp only [reduceCtorEq, false_iff, not_and]
        omega
      · rw [if_neg h3, if_neg (by omega : ¬ v.length = 0)]
        cases b
        · rw [if_neg (by decide)]
          simp only [Except.ok.injEq, true_and, h1]
          constructor
          · intro h
            exact ⟨by omega, by omega, h.symm⟩
          · intro h
            exact h.2.2.symm
        · rw [if_pos rfl]
          simp only [reduceCtorEq, Bool.true_eq_false, false_and, and_false]
  · rw [if_neg h1]
    simp only [reduceCtorEq, false_iff, not_and]
    intro h
    exact absurd h h1

/-- An address in `[1, 65536)` is converted to its integral part. -/
theorem castUSHORT_truncate (x : ℚ) (h : 1 ≤ x ∧ x < 65536) :
    castUSHORT (truncate x) = ⌊x⌋ ∧ 1 ≤ ⌊x⌋ ∧ ⌊x⌋ ≤ 65535 := by
  have hlo : 1 ≤ ⌊x⌋ := Int.le_floor.2 (by simpa using h.1)
  have hhi : ⌊x⌋ < 65536 := Int.floor_lt.2 (by simpa using h.2)
  rw [truncate_of_nonneg x (by linarith), castUSHORT_of_fits _ (by omega)]
  omega

/-- A value in `[0, 256)` is converted to its integral part. -/
theorem castUCHAR_truncate (y : ℚ) (h : 0 ≤ y ∧ y < 256) : castUCHAR (truncate y) = ⌊y⌋ := by
  have hlo : 0 ≤ ⌊y⌋ := Int.le_floor.2 (by simpa using h.1)
  have hhi : ⌊y⌋ < 256 := Int.floor_lt.2 (by simpa using h.2)
  rw [truncate_of_nonneg y h.1, castUCHAR_of_byte _ (by omega)]

theorem convert_double_data_values_converted (a v : List ℚ) (h : v.length = a.length) :
    (convert_double a v).data_values_converted = v.map fun y => castUCHAR (truncate y) := by
  simp only [convert_double, ← h]
  split <;> exact map_range_getD_double (fun y => castUCHAR (truncate y)) v

/-- On addresses in `[1, 65536)` going up in steps of 1 the request starts at the integral
part of the first address, lowered by one, and has as many channels as there are
addresses; its last channel is the integral part of the last address, lowered by one. -/
theorem convert_double_start_count (a v : List ℚ) (h1 : 1 ≤ a.length) (h512 : a.length ≤ 512)
    (hstep : ∀ i, 1 ≤ i → i < a.length → a.getD i 0 - a.getD (i - 1) 0 = 1)
    (ha : ∀ x ∈ a, 1 ≤ x ∧ x < 65536) :
    (convert_double a v).start_address = ⌊a.getD 0 0⌋ - 1 ∧
    (convert_double a v).no_of_channels = a.length ∧
    ⌊a.getD (a.length - 1) 0⌋ = ⌊a.getD 0 0⌋ + a.length - 1 := by
  have h0 := castUSHORT_truncate _ (ha _ (getD_mem_of_lt a 0 0 (by omega)))
  have hl := castUSHORT_truncate _ (ha _ (getD_mem_of_lt a 0 (a.length - 1) (by omega)))
  have hlast := getD_of_steps_double a a.length hstep (a.length - 1) (by omega)
  have hc : ((a.length - 1 : Nat) : Int) = (a.length : Int) - 1 := by omega
  have hfl : ⌊a.getD (a.length - 1) 0⌋ = ⌊a.getD 0 0⌋ + a.length - 1 := by
    rw [hlast, Int.floor_add_nat, hc]
    omega
  refine ⟨?_, ?_, hfl⟩
  · simp only [convert_double]
    split <;>
    · dsimp only
      rw [getD_map_range _ a.length 0 h1, h0.1]
      omega
  · simp only [convert_double]
    split
    · dsimp only
      rw [getD_map_range _ a.length 0 h1, getD_map_range _ a.length (a.length - 1) (by omega),
        h0.1, hl.1, hfl]
      omega
    · dsimp only
      omega

/-! ## The checked arrays: facts -/

theorem writtenCells_length (f : Nat → Int) (k : Nat) : (writtenCells f k).length = 512 := by
  simp only [writtenCells, List.length_map, List.length_range]

theorem newArray512_eq (f : Nat → Int) : newArray512 = writtenCells f 0 := by
  apply List.ext_getElem
  · simp only [newArray512, writtenCells, List.length_replicate, List.length_map,
      List.length_range]
  · intro i h1 h2
    simp only [newArray512, writtenCells, List.getElem_replicate, List.getElem_map,
      List.getElem_range, Nat.not_lt_zero, if_false]

theorem writeCell_writtenCells (f : Nat → Int) (k : Nat) (h : k < 512) :
    writeCell (writtenCells f k) k (f k) = some (writtenCells f (k + 1)) := by
  rw [writeCell, if_pos (by rw [writtenCells_length]; exact h)]
  refine congrArg some ?_
  apply List.ext_getElem
  · simp only [writtenCells, List.length_set, List.length_map, List.length_range]
  · intro i h1 h2
    rw [List.getElem_set]
    simp only [writtenCells, List.getElem_map, List.getElem_range]
    by_cases hik : k = i
    · subst hik
      rw [if_pos rfl, if_pos (by omega)]
    · rw [if_neg hik]
      by_cases hlt : i < k
      · rw [if_pos hlt, if_pos (by omega)]
      · rw [if_neg hlt, if_neg (by omega)]

theorem readCell_writtenCells (f : Nat → Int) (k i : Nat) (hk : k ≤ 512) (hi : i < k) :
    readCell (writtenCells f k) i = some (f i) := by
  have hlen : i < (writtenCells f k).length := by rw [writtenCells_length]; omega
  rw [readCell, if_pos hlen, List.getD_eq_getElem _ _ hlen]
  simp only [writtenCells, List.getElem_map, List.getElem_range, if_pos hi]

theorem readCells_writtenCells (f : Nat → Int) (k : Nat) (hk : k ≤ 512) :
    ∀ j, j ≤ k → readCells (writtenCells f k) j = some ((List.range j).map f) := by
  intro j
  induction j with
  | zero => intro _; rfl
  | succ m ih =>
    intro hm
    rw [readCells, ih (by omega), readCell_writtenCells f k m hk (by omega), List.range_succ,
      List.map_append]
    rfl

theorem copyLoop_eq (addresses data_values : MxArray) :
    ∀ k, k ≤ 512 → copyLoop addresses data_values k =
      some (writtenCells (fun i => (castUSHORT (mxGetData addresses i) - 1) % 65536) k,
        writtenCells (fun i => castUCHAR (mxGetData data_values i)) k) := by
  intro k
  induction k with
  | zero =>
    intro _
    rw [copyLoop, ← newArray512_eq, ← newArray512_eq]
  | succ m ih =>
    intro hm
    rw [copyLoop, ih (by omega)]
    simp only
    rw [writeCell_writtenCells (fun i => (castUSHORT (mxGetData addresses i) - 1) % 65536) m
        (by omega),
      writeCell_writtenCells (fun i => castUCHAR (mxGetData data_values i)) m (by omega)]

/-- When the channel count is the number of elements, at most 512, every access to the two
arrays is within the array and reads a written cell, the control transfer reads exactly
the bytes that were written, and the checked run gives the request of `convert`. -/
theorem convertChecked_eq (addresses data_values : MxArray)
    (h1 : 1 ≤ mxGetNumberOfElements addresses) (h512 : mxGetNumberOfElements addresses ≤ 512)
    (hcount : (convert addresses data_values).no_of_channels =
      mxGetNumberOfElements addresses) :
    convertChecked addresses data_values =
      some ((convert addresses data_values).start_address,
        (convert addresses data_values).no_of_channels,
        (convert addresses data_values).data_values_converted) := by
  have hn : ((mxGetNumberOfElements addresses : Int) % 4294967296).toNat =
      mxGetNumberOfElements addresses := by omega
  have hread := readCells_writtenCells (fun i => castUCHAR (mxGetData data_values i))
    (mxGetNumberOfElements addresses) h512 (mxGetNumberOfElements addresses) (le_refl _)
  have hr0 := readCell_writtenCells
    (fun i => (castUSHORT (mxGetData addresses i) - 1) % 65536)
    (mxGetNumberOfElements addresses) 0 h512 (by omega)
  have hrl := readCell_writtenCells
    (fun i => (castUSHORT (mxGetData addresses i) - 1) % 65536)
    (mxGetNumberOfElements addresses) (mxGetNumberOfElements addresses - 1) h512 (by omega)
  have hg0 := getD_map_range (fun i => (castUSHORT (mxGetData addresses i) - 1) % 65536)
    (mxGetNumberOfElements addresses) 0 (by omega)
  have hgl := getD_map_range (fun i => (castUSHORT (mxGetData addresses i) - 1) % 65536)
    (mxGetNumberOfElements addresses) (mxGetNumberOfElements addresses - 1) (by omega)
  by_cases hgt : mxGetNumberOfElements addresses > 1
  · simp only [convert, if_pos hgt, hg0, hgl] at hcount ⊢
    simp only [convertChecked, copyLoop_eq addresses data_values _ h512, hr0, hrl, if_pos hgt,
      hcount, hn, hread]
  · have hone : ((1 : Int) % 4294967296).toNat = mxGetNumberOfElements addresses := by
      have : mxGetNumberOfElements addresses = 1 := by omega
      rw [this]
      rfl
    simp only [convert, if_neg hgt, hg0]
    unfold convertChecked
    dsimp only
    rw [copyLoop_eq addresses data_values _ h512]
    dsimp only
    rw [if_neg hgt, hr0]
    dsimp only
    rw [hone, hread]

theorem allAddresses_length : allAddresses.length = 512 := by
  simp [allAddresses]

theorem allAddresses_getD (i : Nat) (h : i < 512) : allAddresses.getD i 0 = (i : Int) + 1 :=
  getD_map_range _ 512 i h


/-- When the device opens and the channel count is the number of bytes written, the
transfer sends exactly those bytes. -/
theorem transferredPayload_transferBlock (usb : Driver) (r : ChannelRange)
    (hfind : usb.LstK_FindByVidPid UDMX_VENDOR_ID UDMX_PRODUCT_ID = true)
    (hopen : usb.Usb_Init = true)
    (hcount : r.no_of_channels = r.data_values_converted.length)
    (hsmall : r.data_values_converted.length ≤ 512) :
    transferredPayload (transferBlock usb r).calls = some r.data_values_converted ∧
    UsbCall.UsbK_ControlTransfer (setupPacket r.no_of_channels r.start_address)
      r.data_values_converted r.data_values_converted.length ∈ (transferBlock usb r).calls := by
  have hn : ((r.data_values_converted.length : Int) % 4294967296).toNat =
      r.data_values_converted.length := by omega
  have hm : (r.data_values_converted.length : Int) % 4294967296 =
      r.data_values_converted.length := by omega
  simp only [transferBlock, hfind, hopen, transferredPayload, Bool.not_true,
    Bool.false_eq_true, if_false, hcount, hn, hm, le_refl, if_true, List.take_length]
  simp

/-- The same on the run of `dmx('send', ...)`. -/
theorem transferredPayload_mexFunction (usb : Driver) (args : List MxArray) (r : ChannelRange)
    (hacc : channelRange (mxString "send" :: args) = .ok r)
    (hinit : usb.LstK_Init = true)
    (hfind : usb.LstK_FindByVidPid UDMX_VENDOR_ID UDMX_PRODUCT_ID = true)
    (hopen : usb.Usb_Init = true)
    (hcount : r.no_of_channels = r.data_values_converted.length)
    (hsmall : r.data_values_converted.length ≤ 512) :
    transferredPayload (mexFunction usb (mxString "send" :: args)).calls =
      some r.data_values_converted := by
  have hn : ((r.data_values_converted.length : Int) % 4294967296).toNat =
      r.data_values_converted.length := by omega
  rw [mexFunction_send_accepted usb args r hacc hinit hfind hopen]
  simp only [transferredPayload, hcount, hn, le_refl, if_true, List.take_length]

/-! ## The claims -/

/-- C1: for addresses `a` of length `n`, `1 ≤ n ≤ 512`, all in `[1, 512]` and going up in
steps of 1, and values `v` of the same length, all in `[0, 255]`, `send` accepts the input
and derives `start_address = a[0] - 1` and `no_of_channels = n` (also for `n = 1`), with
the values as the data to send. -/
theorem send_derives_start_and_count (name : MxArray) (ca cv : Bool) (a v : List Int)
    (hlen : v.length = a.length) (h1 : 1 ≤ a.length) (h512 : a.length ≤ 512)
    (ha : ∀ x ∈ a, 1 ≤ x ∧ x ≤ 512)
    (hstep : ∀ i, i < a.length → 1 ≤ i → a.getD i 0 = a.getD (i - 1) 0 + 1)
    (hv : ∀ y ∈ v, 0 ≤ y ∧ y ≤ 255) :
    channelRange [name, mxVector ca a, mxVector cv v] =
      .ok { start_address := a.getD 0 0 - 1, no_of_channels := a.length,
            data_values_converted := v } := by
  have hstep2 : ∀ i, 1 ≤ i → i < a.length → a.getD i 0 - a.getD (i - 1) 0 = 1 := by
    intro i hi hn
    have := hstep i hn hi
    omega
  rw [channelRange_mxVector_ok]
  refine ⟨hlen.symm, h512, h1, hstep2, ?_⟩
  have h0 : 1 ≤ a.getD 0 0 ∧ a.getD 0 0 ≤ 512 := by
    rw [List.getD_eq_getElem _ _ (by omega : 0 < a.length)]
    exact ha _ (List.getElem_mem _)
  have hstart := convert_start_address ca cv a v h1
  have hcount := convert_no_of_channels ca cv a v h1 h512 hstep2
    (fun x hx => by have := ha x hx; omega)
  have hdata := convert_data_values_converted ca cv a v hlen
  have hmap : v.map castUCHAR = v := map_castUCHAR_of_bytes v hv
  have hs : (castUSHORT (a.getD 0 0) - 1) % 65536 = a.getD 0 0 - 1 := by
    rw [castUSHORT_of_fits _ (by omega)]
    omega
  rw [hmap] at hdata
  rw [hs] at hstart
  generalize convert (mxVector ca a) (mxVector cv v) = r at hstart hcount hdata
  cases r
  simp only at hstart hcount hdata
  rw [hstart, hcount, hdata]

/-- C1, witnesses: `addresses = [100]`, `values = [10]` gives `start_address = 99` and
`no_of_channels = 1`; `addresses = [100..104]`, `values = [10, 255, 255, 0, 0]` gives the
request that `commtest` sends as its fixed sample. -/
theorem send_derives_start_and_count_witness :
    channelRange [mxString "send", mxVector false [100], mxVector false [10]] =
        .ok { start_address := 99, no_of_channels := 1, data_values_converted := [10] } ∧
    channelRange [mxString "send", mxVector false [100, 101, 102, 103, 104],
        mxVector false [10, 255, 255, 0, 0]] = .ok commtestData :=
  ⟨send_derives_start_and_count (mxString "send") false false [100] [10]
      (by decide) (by decide) (by decide) (by decide) (by decide) (by decide),
   send_derives_start_and_count (mxString "send") false false [100, 101, 102, 103, 104]
      [10, 255, 255, 0, 0] (by decide) (by decide) (by decide) (by decide) (by decide)
      (by decide)⟩

/-- C2: on every input that `send` accepts, when the device opens, the control transfer is
handed a setup packet with direction 0 (host to device), type 2 (vendor), request
`cmd_SetChannelRange`, `Value` the channel count, `Index` the start address and `Length`
the channel count, and its `BufferLength` is the channel count. -/
theorem send_control_request (usb : Driver) (args : List MxArray) (r : ChannelRange)
    (hacc : channelRange (mxString "send" :: args) = .ok r)
    (hinit : usb.LstK_Init = true)
    (hfind : usb.LstK_FindByVidPid UDMX_VENDOR_ID UDMX_PRODUCT_ID = true)
    (hopen : usb.Usb_Init = true) :
    ∃ Pkt Buffer BufferLength,
      (mexFunction usb (mxString "send" :: args)).calls =
        [.LstK_Init, .LstK_FindByVidPid UDMX_VENDOR_ID UDMX_PRODUCT_ID, .LibK_LoadDriverAPI,
          .Usb_Init, .UsbK_ControlTransfer Pkt Buffer BufferLength, .Usb_Free, .LstK_Free] ∧
      Pkt.BmRequest_Dir = 0 ∧ Pkt.BmRequest_Type = 2 ∧ Pkt.Request = cmd_SetChannelRange ∧
      Pkt.Value = r.no_of_channels ∧ Pkt.Index = r.start_address ∧
      Pkt.Length = r.no_of_channels ∧ BufferLength = r.no_of_channels := by
  have hr : ∃ addresses data_values, r = convert addresses data_values := by
    simp only [channelRange] at hacc
    split at hacc
    · cases hacc
    · rename_i addresses data_values _
      exact ⟨addresses, data_values, (Except.ok.inj hacc).symm⟩
  obtain ⟨addresses, data_values, rfl⟩ := hr
  have hb := convert_bounds addresses data_values
  refine ⟨_, _, _, congrArg Run.calls (mexFunction_send_accepted usb args _ hacc hinit hfind hopen),
    rfl, rfl, rfl, ?_, ?_, ?_, ?_⟩ <;> first | omega | (simp only [setupPacket]; omega)

/-- C2, witness: the request of `addresses = [100..104]` on a driver that opens the
device. -/
theorem send_control_request_witness :
    ∃ Pkt Buffer BufferLength,
      (mexFunction okDriver [mxString "send", mxVector false [100, 101, 102, 103, 104],
        mxVector false [10, 255, 255, 0, 0]]).calls =
        [.LstK_Init, .LstK_FindByVidPid UDMX_VENDOR_ID UDMX_PRODUCT_ID, .LibK_LoadDriverAPI,
          .Usb_Init, .UsbK_ControlTransfer Pkt Buffer BufferLength, .Usb_Free, .LstK_Free] ∧
      Pkt.BmRequest_Dir = 0 ∧ Pkt.BmRequest_Type = 2 ∧ Pkt.Request = cmd_SetChannelRange ∧
      Pkt.Value = 5 ∧ Pkt.Index = 99 ∧ Pkt.Length = 5 ∧ BufferLength = 5 :=
  send_control_request okDriver
    [mxVector false [100, 101, 102, 103, 104], mxVector false [10, 255, 255, 0, 0]]
    commtestData (by rfl) (by rfl) (by rfl) (by rfl)

/-- C3, as stated, fails: the addresses -0.5 and 0.5 with the values 7 and 8 are accepted
(the step, 0.5 - (-0.5), is exactly 1, in double arithmetic too), both addresses have the
integral part 0 and are converted to 65535, the channel count is 1, and the transfer sends
the one byte 7, not the two values. -/
theorem send_payload_counterexample :
    channelRange_double [-1 / 2, 1 / 2] [7, 8] =
      .ok { start_address := 65535, no_of_channels := 1, data_values_converted := [7, 8] } ∧
    transferredPayload (transferBlock okDriver
      { start_address := 65535, no_of_channels := 1, data_values_converted := [7, 8] }).calls =
      some [7] := by
  have t1 : truncate (-1 / 2) = 0 := by
    have hnum : ((-1 / 2 : ℚ)).num = -1 := by norm_num
    have hden : ((-1 / 2 : ℚ)).den = 2 := by norm_num
    rw [truncate, hnum, hden]
    rfl
  have t2 : truncate (1 / 2) = 0 := by
    rw [truncate_of_nonneg _ (by norm_num), Int.floor_eq_iff]
    norm_num
  have t7 : truncate 7 = 7 := truncate_intCast 7
  have t8 : truncate 8 = 8 := truncate_intCast 8
  constructor
  · rw [channelRange_double_ok]
    refine ⟨rfl, by decide, by decide, ?_, ?_⟩
    · intro i h1 h2
      have hi2 : i < 2 := by simpa using h2
      have h1i : i = 1 := by omega
      subst h1i
      norm_num [List.getD]
    · simp only [convert_double, List.length_cons, List.length_nil]
      rw [if_pos (by decide)]
      simp only [List.range_succ, List.range_zero, List.nil_append, List.cons_append,
        List.map_cons, List.map_nil, List.getD_cons_zero, List.getD_cons_succ, t1, t2, t7, t8]
      rfl
  · rfl

/-- C3, amended: on every input that `send` accepts whose addresses are at least 1 and
below 65536 and whose values are whole numbers in `[0, 255]`, the bytes the control
transfer sends are the input values in their order, exactly one byte per address: the
buffer handed to the transfer holds the values and its `BufferLength` is their number. -/
theorem send_payload (usb : Driver) (a : List ℚ) (v : List Int) (r : ChannelRange)
    (hacc : channelRange_double a (v.map fun (y : Int) => (y : ℚ)) = .ok r)
    (ha : ∀ x ∈ a, 1 ≤ x ∧ x < 65536)
    (hv : ∀ y ∈ v, 0 ≤ y ∧ y ≤ 255)
    (hfind : usb.LstK_FindByVidPid UDMX_VENDOR_ID UDMX_PRODUCT_ID = true)
    (hopen : usb.Usb_Init = true) :
    transferredPayload (transferBlock usb r).calls = some v ∧
    v.length = a.length ∧
    (∃ Pkt, UsbCall.UsbK_ControlTransfer Pkt v v.length ∈ (transferBlock usb r).calls) ∧
    (∀ (ca cv : Bool) (ai : List Int), (ai.map fun (x : Int) => (x : ℚ)) = a →
      usb.LstK_Init = true →
      transferredPayload
        (mexFunction usb [mxString "send", mxVector ca ai, mxVector cv v]).calls = some v) := by
  obtain ⟨hlen, h512, h1, hstep, hr⟩ := (channelRange_double_ok _ _ _).1 hacc
  rw [List.length_map] at hlen
  have hsc := convert_double_start_count a (v.map fun (y : Int) => (y : ℚ)) h1 h512 hstep ha
  have hdata : r.data_values_converted = v := by
    rw [hr, convert_double_data_values_converted _ _ (by rw [List.length_map]; exact hlen.symm),
      List.map_map]
    conv_rhs => rw [← List.map_id v]
    apply List.map_congr_left
    intro y hy
    simp only [Function.comp, truncate_intCast, id]
    exact castUCHAR_of_byte y (hv y hy)
  have hcount : r.no_of_channels = r.data_values_converted.length := by
    rw [hdata, hr, hsc.2.1, hlen]
  have hsmall : r.data_values_converted.length ≤ 512 := by rw [hdata]; omega
  have hpay := transferredPayload_transferBlock usb r hfind hopen hcount hsmall
  rw [hdata] at hpay
  refine ⟨hpay.1, hlen.symm, ⟨_, hpay.2⟩, ?_⟩
  intro ca cv ai hai hinit
  have hacc2 : channelRange [mxString "send", mxVector ca ai, mxVector cv v] = .ok r := by
    rw [← channelRange_double_intCast, hai]
    exact hacc
  have := transferredPayload_mexFunction usb _ r hacc2 hinit hfind hopen hcount hsmall
  rw [hdata] at this
  exact this

/-- C3 amended, witness: the five values of the sample request, sent as they are. -/
theorem send_payload_witness :
    transferredPayload (transferBlock okDriver commtestData).calls =
      some [10, 255, 255, 0, 0] ∧
    ([10, 255, 255, 0, 0] : List Int).length =
      (([100, 101, 102, 103, 104] : List Int).map fun (x : Int) => (x : ℚ)).length ∧
    (∃ Pkt, UsbCall.UsbK_ControlTransfer Pkt [10, 255, 255, 0, 0]
        ([10, 255, 255, 0, 0] : List Int).length ∈ (transferBlock okDriver commtestData).calls) ∧
    transferredPayload
      (mexFunction okDriver [mxString "send", mxVector false [100, 101, 102, 103, 104],
        mxVector true [10, 255, 255, 0, 0]]).calls = some [10, 255, 255, 0, 0] := by
  have h := send_payload okDriver
    (([100, 101, 102, 103, 104] : List Int).map fun (x : Int) => (x : ℚ))
    [10, 255, 255, 0, 0] commtestData
    (by rw [channelRange_double_intCast (mxString "send") false false]; rfl)
    (by intro x hx
        obtain ⟨i, hi, rfl⟩ := List.mem_map.1 hx
        have hb : 1 ≤ i ∧ i < 65536 := by
          simp only [List.mem_cons, List.mem_singleton, List.not_mem_nil, or_false] at hi
          omega
        exact ⟨by exact_mod_cast hb.1, by exact_mod_cast hb.2⟩)
    (by decide) (by rfl) (by rfl)
  exact ⟨h.1, h.2.1, h.2.2.1, h.2.2.2 false true [100, 101, 102, 103, 104] rfl (by rfl)⟩

/-- C4: for addresses and values of the same length `n`, `2 ≤ n ≤ 512`, if some step
`a[i] - a[i-1]` with `1 ≤ i < n` is not 1 (a gap, a duplicate or a decrease), `send` fails
with "The addresses must increase one by one" and no request is built: the call ends
right after the device list was initialised.  The ranges of the elements play no part. -/
theorem send_rejects_non_contiguous (usb : Driver) (ca cv : Bool) (a v : List Int)
    (hlen : v.length = a.length) (h2 : 2 ≤ a.length) (h512 : a.length ≤ 512)
    (hgap : ∃ i, 1 ≤ i ∧ i < a.length ∧ a.getD i 0 - a.getD (i - 1) 0 ≠ 1)
    (hinit : usb.LstK_Init = true) :
    channelRange [mxString "send", mxVector ca a, mxVector cv v] = .error .notContiguous ∧
    mexFunction usb [mxString "send", mxVector ca a, mxVector cv v] =
      { calls := [.LstK_Init], result := .error .notContiguous } := by
  have hrej : channelRange [mxString "send", mxVector ca a, mxVector cv v] =
      .error .notContiguous := by
    rw [channelRange_mxVector]
    have hbad := (notIncreasingOneByOne_eq_true ca a a.length).2 hgap
    have h3 : ¬ a.length ≠ v.length := by omega
    have h4 : ¬ 512 < a.length := by omega
    have h5 : ¬ a.length = 0 := by omega
    rw [if_neg h3, if_neg h4, if_neg h5, if_pos hbad]
  exact ⟨hrej, mexFunction_send_rejected usb _ _ hrej hinit⟩

/-- C4, witness: `addresses = [100, 102]` (a gap of 2) is rejected. -/
theorem send_rejects_non_contiguous_witness :
    channelRange [mxString "send", mxVector false [100, 102], mxVector false [0, 0]] =
      .error .notContiguous ∧
    mexFunction okDriver [mxString "send", mxVector false [100, 102], mxVector false [0, 0]] =
      { calls := [.LstK_Init], result := .error .notContiguous } :=
  send_rejects_non_contiguous okDriver false false [100, 102] [0, 0] (by decide) (by decide)
    (by decide) ⟨1, by decide, by decide, by decide⟩ (by rfl)

/-- C5, as stated, fails: `addresses = [0]` and `addresses = [513]` are outside
`[1, 512]` and `send` accepts them, with wire start addresses 65535 and 512, and sends the
request. -/
theorem send_out_of_range_counterexample :
    channelRange [mxString "send", mxVector false [0], mxVector false [0]] =
        .ok { start_address := 65535, no_of_channels := 1, data_values_converted := [0] } ∧
    channelRange [mxString "send", mxVector false [513], mxVector false [0]] =
        .ok { start_address := 512, no_of_channels := 1, data_values_converted := [0] } ∧
    (mexFunction okDriver [mxString "send", mxVector false [513], mxVector false [0]]).result =
        .ok (some false) :=
  ⟨rfl, rfl, rfl⟩

/-- C5, amended: `send` has no check of element ranges and no error for it.  For
whole-number addresses and values of the same length `n`, `1 ≤ n ≤ 512`, the sanity checks
pass exactly when the addresses go up in steps of 1, whatever the ranges of the elements,
and otherwise they fail with the contiguity error. -/
theorem send_checks_no_range (name : MxArray) (ca cv : Bool) (a v : List Int)
    (hlen : v.length = a.length) (h1 : 1 ≤ a.length) (h512 : a.length ≤ 512) :
    ((∀ i, 1 ≤ i → i < a.length → a.getD i 0 - a.getD (i - 1) 0 = 1) →
      sanityChecks [name, mxVector ca a, mxVector cv v] = .ok (mxVector ca a, mxVector cv v) ∧
      ∃ r, channelRange [name, mxVector ca a, mxVector cv v] = .ok r) ∧
    ((∃ i, 1 ≤ i ∧ i < a.length ∧ a.getD i 0 - a.getD (i - 1) 0 ≠ 1) →
      sanityChecks [name, mxVector ca a, mxVector cv v] = .error .notContiguous ∧
      channelRange [name, mxVector ca a, mxVector cv v] = .error .notContiguous) := by
  have h3 : ¬ a.length ≠ v.length := by omega
  have h4 : ¬ 512 < a.length := by omega
  have h5 : ¬ a.length = 0 := by omega
  constructor
  · intro hstep
    have hgood := (notIncreasingOneByOne_eq_false ca a a.length).2 hstep
    refine ⟨?_, convert (mxVector ca a) (mxVector cv v), ?_⟩
    · rw [sanityChecks_mxVector, if_neg h3, if_neg h4, if_neg h5, hgood]
      rfl
    · rw [channelRange_mxVector_ok]
      exact ⟨hlen.symm, h512, h1, hstep, rfl⟩
  · intro hgap
    have hbad := (notIncreasingOneByOne_eq_true ca a a.length).2 hgap
    constructor
    · rw [sanityChecks_mxVector, if_neg h3, if_neg h4, if_neg h5, if_pos hbad]
    · rw [channelRange_mxVector, if_neg h3, if_neg h4, if_neg h5, if_pos hbad]

/-- C5 amended, witness: the address 513, out of range, passes the sanity checks. -/
theorem send_checks_no_range_witness :
    sanityChecks [mxString "send", mxVector false [513], mxVector false [0]] =
      .ok (mxVector false [513], mxVector false [0]) ∧
    ∃ r, channelRange [mxString "send", mxVector false [513], mxVector false [0]] = .ok r :=
  (send_checks_no_range (mxString "send") false false [513] [0] (by decide) (by decide)
    (by decide)).1 (by decide)

/-- C6: for addresses and values of the same length `n > 512` (such as 513), `send` fails
with "You only can have 512 elements in a DMX512 frame"; and for `n = 512`, with the
addresses 1..512, the error is not raised: the input is accepted, as the whole frame. -/
theorem send_frame_size (name : MxArray) (ca cv : Bool) :
    (∀ a v : List Int, v.length = a.length → 512 < a.length →
      channelRange [name, mxVector ca a, mxVector cv v] = .error .frameSize) ∧
    (∀ w : List Int, w.length = 512 →
      ∃ r, channelRange [name, mxVector ca allAddresses, mxVector cv w] = .ok r ∧
        r.start_address = 0 ∧ r.no_of_channels = 512) := by
  constructor
  · intro a v hlen hbig
    rw [channelRange_mxVector]
    have h3 : ¬ a.length ≠ v.length := by omega
    rw [if_neg h3, if_pos hbig]
  · intro w hw
    have hl := allAddresses_length
    have hstep : ∀ i, 1 ≤ i → i < allAddresses.length →
        allAddresses.getD i 0 - allAddresses.getD (i - 1) 0 = 1 := by
      intro i hi hn
      rw [allAddresses_getD i (by omega), allAddresses_getD (i - 1) (by omega)]
      omega
    refine ⟨convert (mxVector ca allAddresses) (mxVector cv w), ?_, ?_, ?_⟩
    · rw [channelRange_mxVector_ok]
      exact ⟨by omega, by omega, by omega, hstep, rfl⟩
    · rw [convert_start_address ca cv allAddresses w (by omega), allAddresses_getD 0 (by omega)]
      rfl
    · have hfits : ∀ x ∈ allAddresses, -2147483648 ≤ x ∧ x ≤ 2147483647 := by
        intro x hx
        obtain ⟨i, hi, rfl⟩ := List.mem_map.1 hx
        have := List.mem_range.1 hi
        omega
      rw [convert_no_of_channels ca cv allAddresses w (by omega) (by omega) hstep hfits, hl]
      rfl

/-- C6, witness: 513 addresses with 513 values are rejected, the addresses 1..512 with 512
values are accepted. -/
theorem send_frame_size_witness :
    channelRange [mxString "send", mxVector false (List.replicate 513 1),
        mxVector false (List.replicate 513 0)] = .error .frameSize ∧
    ∃ r, channelRange [mxString "send", mxVector false allAddresses,
        mxVector false (List.replicate 512 0)] = .ok r ∧
      r.start_address = 0 ∧ r.no_of_channels = 512 :=
  have h := send_frame_size (mxString "send") false false
  ⟨h.1 (List.replicate 513 1) (List.replicate 513 0) (by simp only [List.length_replicate])
      (by simp only [List.length_replicate]; omega),
   h.2 (List.replicate 512 0) (by simp only [List.length_replicate])⟩

/-- C7, as stated, fails: an empty address vector with one value, and one address with an
empty value vector, both fail with the length-mismatch error, not with an empty-input
error. -/
theorem send_empty_input_counterexample :
    channelRange [mxString "send", mxVector false [], mxVector false [1]] =
        .error .lengthMismatch ∧
    channelRange [mxString "send", mxVector false [1], mxVector false []] =
        .error .lengthMismatch ∧
    (mexFunction okDriver [mxString "send", mxVector false [], mxVector false [1]]).result =
        .error .lengthMismatch :=
  ⟨rfl, rfl, rfl⟩

/-- C7, amended: on two vectors the checks of `send` are applied in the order
(1) equal length, (2) length at most 512, (3) non-empty, (4) contiguity, each with its own
error, and the error reported is that of the first check that fails in this order; there
is no check of element ranges, and the input is accepted exactly when the four checks
pass.  In particular an empty vector paired with a non-empty one fails with the
length-mismatch error. -/
theorem send_check_order (name : MxArray) (ca cv : Bool) (a v : List Int) :
    (channelRange [name, mxVector ca a, mxVector cv v] = .error .lengthMismatch ↔
      a.length ≠ v.length) ∧
    (channelRange [name, mxVector ca a, mxVector cv v] = .error .frameSize ↔
      a.length = v.length ∧ 512 < a.length) ∧
    (channelRange [name, mxVector ca a, mxVector cv v] = .error .addressesEmpty ↔
      a.length = v.length ∧ a.length ≤ 512 ∧ a.length = 0) ∧
    (channelRange [name, mxVector ca a, mxVector cv v] = .error .notContiguous ↔
      a.length = v.length ∧ a.length ≤ 512 ∧ a.length ≠ 0 ∧
        ∃ i, 1 ≤ i ∧ i < a.length ∧ a.getD i 0 - a.getD (i - 1) 0 ≠ 1) ∧
    ((∃ r, channelRange [name, mxVector ca a, mxVector cv v] = .ok r) ↔
      a.length = v.length ∧ a.length ≤ 512 ∧ a.length ≠ 0 ∧
        ∀ i, 1 ≤ i → i < a.length → a.getD i 0 - a.getD (i - 1) 0 = 1) ∧
    channelRange [name, mxVector ca a, mxVector cv v] ≠ .error .dataEmpty := by
  rw [channelRange_mxVector, ← notIncreasingOneByOne_eq_true ca a a.length,
    ← notIncreasingOneByOne_eq_false ca a a.length]
  generalize notIncreasingOneByOne (mxVector ca a) a.length = b
  by_cases h1 : a.length ≠ v.length
  · rw [if_pos h1]
    refine ⟨?_, ?_, ?_, ?_, ?_, ?_⟩ <;>
      simp only [reduceCtorEq, Except.error.injEq, exists_false, false_iff, true_iff, ne_eq,
        not_false_eq_true, iff_true] <;>
      omega
  · rw [if_neg h1]
    by_cases h2 : 512 < a.length
    · rw [if_pos h2]
      refine ⟨?_, ?_, ?_, ?_, ?_, ?_⟩ <;>
        simp only [reduceCtorEq, Except.error.injEq, exists_false, false_iff, true_iff, ne_eq,
          not_false_eq_true, iff_true] <;>
        omega
    · rw [if_neg h2]
      by_cases h3 : a.length = 0
      · rw [if_pos h3]
        refine ⟨?_, ?_, ?_, ?_, ?_, ?_⟩ <;>
          simp only [reduceCtorEq, Except.error.injEq, exists_false, false_iff, true_iff,
            ne_eq, not_false_eq_true, iff_true] <;>
          omega
      · rw [if_neg h3]
        cases b
        · rw [if_neg (by decide)]
          refine ⟨?_, ?_, ?_, ?_, ?_, ?_⟩ <;>
            simp only [reduceCtorEq, Except.ok.injEq, exists_eq', exists_false, false_iff,
              true_iff, ne_eq, not_false_eq_true, Bool.false_eq_true, and_false, and_true,
              iff_true] <;>
            omega
        · rw [if_pos rfl]
          refine ⟨?_, ?_, ?_, ?_, ?_, ?_⟩ <;>
            simp only [reduceCtorEq, Except.error.injEq, exists_false, false_iff, true_iff,
              ne_eq, not_false_eq_true, Bool.true_eq_false, and_false, and_true, iff_true] <;>
            omega

/-- C8, as stated, fails: `addresses = [512, 513]` is accepted and gives the request with
`start_address = 511` and `no_of_channels = 2`, whose last channel, 512, is beyond 511. -/
theorem send_invariant_counterexample :
    channelRange [mxString "send", mxVector false [512, 513], mxVector false [0, 0]] =
        .ok { start_address := 511, no_of_channels := 2, data_values_converted := [0, 0] } ∧
    ¬ ((511 : Int) + 2 - 1 ≤ 511) :=
  ⟨rfl, by decide⟩

/-- C8, amended: every request `send` builds from an accepted input whose addresses all
lie in `[1, 513)`, whole numbers or not, satisfies the invariant of a channel range
request: `1 ≤ no_of_channels ≤ 512`, `0 ≤ start_address ≤ 511` and
`start_address + no_of_channels - 1 ≤ 511`.  For whole-number input it is the request of
the run of `send`. -/
theorem send_request_invariant (a v : List ℚ) (r : ChannelRange)
    (hacc : channelRange_double a v = .ok r)
    (ha : ∀ x ∈ a, 1 ≤ x ∧ x < 513) :
    (1 ≤ r.no_of_channels ∧ r.no_of_channels ≤ 512) ∧
    (0 ≤ r.start_address ∧ r.start_address ≤ 511) ∧
    r.start_address + r.no_of_channels - 1 ≤ 511 ∧
    (∀ (name : MxArray) (ca cv : Bool) (ai vi : List Int),
      (ai.map fun (x : Int) => (x : ℚ)) = a → (vi.map fun (x : Int) => (x : ℚ)) = v →
      channelRange [name, mxVector ca ai, mxVector cv vi] = .ok r) := by
  obtain ⟨hlen, h512, h1, hstep, hr⟩ := (channelRange_double_ok _ _ _).1 hacc
  have ha2 : ∀ x ∈ a, 1 ≤ x ∧ x < 65536 := fun x hx => ⟨(ha x hx).1, by linarith [(ha x hx).2]⟩
  obtain ⟨hstart, hcount, hlast⟩ := convert_double_start_count a v h1 h512 hstep ha2
  have h0 : 1 ≤ ⌊a.getD 0 0⌋ :=
    Int.le_floor.2 (by simpa using (ha _ (getD_mem_of_lt a 0 0 (by omega))).1)
  have hl : ⌊a.getD (a.length - 1) 0⌋ < 513 :=
    Int.floor_lt.2 (by simpa using (ha _ (getD_mem_of_lt a 0 (a.length - 1) (by omega))).2)
  rw [hr, hstart, hcount]
  refine ⟨⟨by omega, by omega⟩, ⟨by omega, by omega⟩, by omega, ?_⟩
  intro name ca cv ai vi hai hvi
  rw [← channelRange_double_intCast, hai, hvi, hacc, hr]

/-- C8 amended, witness: the sample request, channels 99 to 103. -/
theorem send_request_invariant_witness :
    (1 ≤ commtestData.no_of_channels ∧ commtestData.no_of_channels ≤ 512) ∧
    (0 ≤ commtestData.start_address ∧ commtestData.start_address ≤ 511) ∧
    commtestData.start_address + commtestData.no_of_channels - 1 ≤ 511 ∧
    channelRange [mxString "send", mxVector false [100, 101, 102, 103, 104],
      mxVector false [10, 255, 255, 0, 0]] = .ok commtestData := by
  have h := send_request_invariant
    (([100, 101, 102, 103, 104] : List Int).map fun (x : Int) => (x : ℚ))
    (([10, 255, 255, 0, 0] : List Int).map fun (x : Int) => (x : ℚ)) commtestData
    (by rw [channelRange_double_intCast (mxString "send") false false]; rfl)
    (by intro x hx
        obtain ⟨i, hi, rfl⟩ := List.mem_map.1 hx
        have hb : 1 ≤ i ∧ i < 513 := by
          simp only [List.mem_cons, List.mem_singleton, List.not_mem_nil, or_false] at hi
          omega
        exact ⟨by exact_mod_cast hb.1, by exact_mod_cast hb.2⟩)
  exact ⟨h.1, h.2.1, h.2.2.1, h.2.2.2 (mxString "send") false false _ _ rfl rfl⟩

/-- C9, as stated, fails: on an accepted input, with the device open, a control transfer
that reports success makes `send` return logical false, and one that reports failure makes
it return logical true. -/
theorem send_result_counterexample :
    okDriver.UsbK_ControlTransfer (setupPacket 1 99) [10] 1 = true ∧
    (mexFunction okDriver [mxString "send", mxVector false [100], mxVector false [10]]).calls =
      [.LstK_Init, .LstK_FindByVidPid UDMX_VENDOR_ID UDMX_PRODUCT_ID, .LibK_LoadDriverAPI,
        .Usb_Init, .UsbK_ControlTransfer (setupPacket 1 99) [10] 1, .Usb_Free, .LstK_Free] ∧
    (mexFunction okDriver [mxString "send", mxVector false [100], mxVector false [10]]).result =
      .ok (some false) ∧
    (mexFunction failingTransferDriver
      [mxString "send", mxVector false [100], mxVector false [10]]).result = .ok (some true) :=
  ⟨rfl, rfl, rfl, rfl⟩

/-- C9, amended: on every accepted input for which the device opens, the logical scalar
`send` returns is the negation of what the control transfer reports: logical false when
the transfer reports success, logical true when it reports failure. -/
theorem send_result_is_negated_success (usb : Driver) (args : List MxArray) (r : ChannelRange)
    (hacc : channelRange (mxString "send" :: args) = .ok r)
    (hinit : usb.LstK_Init = true)
    (hfind : usb.LstK_FindByVidPid UDMX_VENDOR_ID UDMX_PRODUCT_ID = true)
    (hopen : usb.Usb_Init = true) :
    ∃ Pkt Buffer BufferLength,
      UsbCall.UsbK_ControlTransfer Pkt Buffer BufferLength ∈
        (mexFunction usb (mxString "send" :: args)).calls ∧
      (usb.UsbK_ControlTransfer Pkt Buffer BufferLength = true →
        (mexFunction usb (mxString "send" :: args)).result = .ok (some false)) ∧
      (usb.UsbK_ControlTransfer Pkt Buffer BufferLength = false →
        (mexFunction usb (mxString "send" :: args)).result = .ok (some true)) := by
  have hrun := mexFunction_send_accepted usb args r hacc hinit hfind hopen
  refine ⟨setupPacket r.no_of_channels r.start_address, r.data_values_converted,
    r.no_of_channels % 4294967296, ?_, ?_, ?_⟩
  · rw [hrun]
    simp
  · intro hs
    rw [hrun, hs]
    rfl
  · intro hs
    rw [hrun, hs]
    rfl

/-- C9 amended, witness: the sample request on a driver whose transfer succeeds. -/
theorem send_result_is_negated_success_witness :
    ∃ Pkt Buffer BufferLength,
      UsbCall.UsbK_ControlTransfer Pkt Buffer BufferLength ∈
        (mexFunction okDriver [mxString "send", mxVector false [100, 101, 102, 103, 104],
          mxVector false [10, 255, 255, 0, 0]]).calls ∧
      (okDriver.UsbK_ControlTransfer Pkt Buffer BufferLength = true →
        (mexFunction okDriver [mxString "send", mxVector false [100, 101, 102, 103, 104],
          mxVector false [10, 255, 255, 0, 0]]).result = .ok (some false)) ∧
      (okDriver.UsbK_ControlTransfer Pkt Buffer BufferLength = false →
        (mexFunction okDriver [mxString "send", mxVector false [100, 101, 102, 103, 104],
          mxVector false [10, 255, 255, 0, 0]]).result = .ok (some true)) :=
  send_result_is_negated_success okDriver
    [mxVector false [100, 101, 102, 103, 104], mxVector false [10, 255, 255, 0, 0]]
    commtestData (by rfl) (by rfl) (by rfl) (by rfl)

/-- C10: when a sanity check of `send` rejects the input (wrong argument count,
non-numeric, too many dimensions, length mismatch, more than 512 elements, empty, not a
vector, not contiguous), the call makes no driver call other than the initialisation of
the device list: no `LstK_FindByVidPid`, no `Usb.Init` and no `UsbK_ControlTransfer`. -/
theorem send_rejected_no_device_io (usb : Driver) (name : MxArray) (args : List MxArray)
    (e : MexError) (hname : name.text = "send")
    (hrej : sanityChecks (name :: args) = .error e) :
    (∀ c ∈ (mexFunction usb (name :: args)).calls, c = .LstK_Init) ∧
    (∀ vid pid, UsbCall.LstK_FindByVidPid vid pid ∉ (mexFunction usb (name :: args)).calls) ∧
    UsbCall.Usb_Init ∉ (mexFunction usb (name :: args)).calls ∧
    (∀ Pkt Buffer BufferLength, UsbCall.UsbK_ControlTransfer Pkt Buffer BufferLength ∉
      (mexFunction usb (name :: args)).calls) := by
  have hall : ∀ c ∈ (mexFunction usb (name :: args)).calls, c = .LstK_Init := by
    have hch : channelRange (name :: args) = .error e := by
      simp [channelRange, hrej]
    have e1 : ¬ "send" = "list" := by decide
    have e2 : ¬ "send" = "devicetest" := by decide
    have e3 : ¬ "send" = "commtest" := by decide
    have e4 : ¬ "send" = "inputtest" := by decide
    simp only [mexFunction, hname, if_neg e1, if_neg e2, if_neg e3, if_neg e4, if_true]
    split_ifs <;> simp [sendBlock, hch]
  refine ⟨hall, ?_, ?_, ?_⟩
  · intro vid pid hmem
    cases hall _ hmem
  · intro hmem
    cases hall _ hmem
  · intro Pkt Buffer BufferLength hmem
    cases hall _ hmem

/-- C10, witness: `dmx('send')` without the two vectors. -/
theorem send_rejected_no_device_io_witness :
    (∀ c ∈ (mexFunction okDriver [mxString "send"]).calls, c = .LstK_Init) ∧
    (∀ vid pid, UsbCall.LstK_FindByVidPid vid pid ∉ (mexFunction okDriver [mxString "send"]).calls) ∧
    UsbCall.Usb_Init ∉ (mexFunction okDriver [mxString "send"]).calls ∧
    (∀ Pkt Buffer BufferLength, UsbCall.UsbK_ControlTransfer Pkt Buffer BufferLength ∉
      (mexFunction okDriver [mxString "send"]).calls) :=
  send_rejected_no_device_io okDriver (mxString "send") [] .argumentCount (by rfl) (by rfl)

/-- C11: on every accepted input for which the device opens, `send` calls
`UsbK_ControlTransfer` exactly once (no retry, no second transfer), then `Usb.Free`
exactly once, and returns; this holds whatever the transfer reports, success or failure. -/
theorem send_one_transfer_one_free (usb : Driver) (args : List MxArray) (r : ChannelRange)
    (hacc : channelRange (mxString "send" :: args) = .ok r)
    (hinit : usb.LstK_Init = true)
    (hfind : usb.LstK_FindByVidPid UDMX_VENDOR_ID UDMX_PRODUCT_ID = true)
    (hopen : usb.Usb_Init = true) :
    (mexFunction usb (mxString "send" :: args)).calls.countP isControlTransfer = 1 ∧
    (mexFunction usb (mxString "send" :: args)).calls.count .Usb_Free = 1 ∧
    (mexFunction usb (mxString "send" :: args)).calls.count .Usb_Init = 1 ∧
    (∃ before Pkt Buffer BufferLength,
      (mexFunction usb (mxString "send" :: args)).calls =
        before ++ [.UsbK_ControlTransfer Pkt Buffer BufferLength, .Usb_Free, .LstK_Free]) ∧
    ∃ b, (mexFunction usb (mxString "send" :: args)).result = .ok (some b) := by
  have hrun := mexFunction_send_accepted usb args r hacc hinit hfind hopen
  rw [hrun]
  refine ⟨?_, ?_, ?_, ?_, ?_⟩
  · simp [isControlTransfer]
  · simp
  · simp
  · exact ⟨[.LstK_Init, .LstK_FindByVidPid UDMX_VENDOR_ID UDMX_PRODUCT_ID,
      .LibK_LoadDriverAPI, .Usb_Init], _, _, _, rfl⟩
  · exact ⟨_, rfl⟩

/-- C11, witness: the sample request on a driver whose control transfer fails. -/
theorem send_one_transfer_one_free_witness :
    (mexFunction failingTransferDriver [mxString "send",
      mxVector false [100, 101, 102, 103, 104],
      mxVector false [10, 255, 255, 0, 0]]).calls.countP isControlTransfer = 1 ∧
    (mexFunction failingTransferDriver [mxString "send",
      mxVector false [100, 101, 102, 103, 104],
      mxVector false [10, 255, 255, 0, 0]]).calls.count .Usb_Free = 1 ∧
    (mexFunction failingTransferDriver [mxString "send",
      mxVector false [100, 101, 102, 103, 104],
      mxVector false [10, 255, 255, 0, 0]]).calls.count .Usb_Init = 1 ∧
    (∃ before Pkt Buffer BufferLength,
      (mexFunction failingTransferDriver [mxString "send",
        mxVector false [100, 101, 102, 103, 104],
        mxVector false [10, 255, 255, 0, 0]]).calls =
        before ++ [.UsbK_ControlTransfer Pkt Buffer BufferLength, .Usb_Free, .LstK_Free]) ∧
    ∃ b, (mexFunction failingTransferDriver [mxString "send",
      mxVector false [100, 101, 102, 103, 104],
      mxVector false [10, 255, 255, 0, 0]]).result = .ok (some b) :=
  send_one_transfer_one_free failingTransferDriver
    [mxVector false [100, 101, 102, 103, 104], mxVector false [10, 255, 255, 0, 0]]
    commtestData (by rfl) (by rfl) (by rfl) (by rfl)

/-- C12: input with a fractional part is not rejected by `send`, it is truncated when
narrowed.  For addresses in `[1, 513)` going up in steps of exactly 1 and values in
`[0, 256)`, whole numbers or not, the input is accepted, each value `v` is sent as the byte
`floor v`, each address `x` is lowered to the wire address `floor x - 1`, and the request
starts at `floor a[0] - 1` with `n` channels. -/
theorem send_truncates_fractional (usb : Driver) (a v : List ℚ)
    (hlen : v.length = a.length) (h1 : 1 ≤ a.length) (h512 : a.length ≤ 512)
    (ha : ∀ x ∈ a, 1 ≤ x ∧ x < 513) (hv : ∀ y ∈ v, 0 ≤ y ∧ y < 256)
    (hstep : ∀ i, i < a.length → 1 ≤ i → a.getD i 0 - a.getD (i - 1) 0 = 1) :
    channelRange_double a v =
      .ok { start_address := ⌊a.getD 0 0⌋ - 1, no_of_channels := a.length,
            data_values_converted := v.map fun y => ⌊y⌋ } ∧
    (∀ x ∈ a, (castUSHORT (truncate x) - 1) % 65536 = ⌊x⌋ - 1) ∧
    (∀ y ∈ v, castUCHAR (truncate y) = ⌊y⌋) ∧
    (usb.LstK_FindByVidPid UDMX_VENDOR_ID UDMX_PRODUCT_ID = true → usb.Usb_Init = true →
      ∀ r, channelRange_double a v = .ok r →
        transferredPayload (transferBlock usb r).calls = some (v.map fun y => ⌊y⌋)) := by
  have hstep2 : ∀ i, 1 ≤ i → i < a.length → a.getD i 0 - a.getD (i - 1) 0 = 1 :=
    fun i hi hn => hstep i hn hi
  have ha2 : ∀ x ∈ a, 1 ≤ x ∧ x < 65536 := fun x hx => ⟨(ha x hx).1, by linarith [(ha x hx).2]⟩
  obtain ⟨hstart, hcount, _⟩ := convert_double_start_count a v h1 h512 hstep2 ha2
  have hdata : (convert_double a v).data_values_converted = v.map fun y => ⌊y⌋ := by
    rw [convert_double_data_values_converted a v hlen]
    exact List.map_congr_left fun y hy => castUCHAR_truncate y (hv y hy)
  have hconv : convert_double a v =
      { start_address := ⌊a.getD 0 0⌋ - 1, no_of_channels := a.length,
        data_values_converted := v.map fun y => ⌊y⌋ } := by
    generalize convert_double a v = c at hstart hcount hdata
    cases c
    simp only at hstart hcount hdata
    rw [hstart, hcount, hdata]
  have hacc : channelRange_double a v =
      .ok { start_address := ⌊a.getD 0 0⌋ - 1, no_of_channels := a.length,
            data_values_converted := v.map fun y => ⌊y⌋ } := by
    rw [channelRange_double_ok]
    exact ⟨hlen.symm, h512, h1, hstep2, hconv.symm⟩
  refine ⟨hacc, ?_, fun y hy => castUCHAR_truncate y (hv y hy), ?_⟩
  · intro x hx
    have := castUSHORT_truncate x (ha2 x hx)
    omega
  · intro hfind hopen r hr
    rw [hacc] at hr
    cases hr
    exact (transferredPayload_transferBlock usb _ hfind hopen
      (by simp only [List.length_map]; omega) (by simp only [List.length_map]; omega)).1

/-- C12, witness: the addresses 100.5 and 101.5 with the values 10.7 and 255.5 are accepted
and sent as the channels from wire address 99 with the bytes 10 and 255. -/
theorem send_truncates_fractional_witness :
    channelRange_double [201 / 2, 203 / 2] [107 / 10, 511 / 2] =
      .ok { start_address := 99, no_of_channels := 2, data_values_converted := [10, 255] } ∧
    castUCHAR (truncate (107 / 10)) = 10 ∧
    (castUSHORT (truncate (201 / 2)) - 1) % 65536 = 99 ∧
    transferredPayload (transferBlock okDriver
      { start_address := 99, no_of_channels := 2, data_values_converted := [10, 255] }).calls =
      some [10, 255] := by
  have f1 : ⌊(201 / 2 : ℚ)⌋ = 100 := by rw [Int.floor_eq_iff]; norm_num
  have f2 : ⌊(107 / 10 : ℚ)⌋ = 10 := by rw [Int.floor_eq_iff]; norm_num
  have f3 : ⌊(511 / 2 : ℚ)⌋ = 255 := by rw [Int.floor_eq_iff]; norm_num
  have h := send_truncates_fractional okDriver [201 / 2, 203 / 2] [107 / 10, 511 / 2]
    (by rfl) (by simp) (by simp)
    (by intro x hx
        simp only [List.mem_cons, List.mem_singleton, List.not_mem_nil, or_false] at hx
        rcases hx with rfl | rfl <;> norm_num)
    (by intro y hy
        simp only [List.mem_cons, List.mem_singleton, List.not_mem_nil, or_false] at hy
        rcases hy with rfl | rfl <;> norm_num)
    (by intro i hi h1
        have hi2 : i < 2 := by simpa using hi
        have h1i : i = 1 := by omega
        subst h1i
        norm_num [List.getD])
  have hacc : channelRange_double [201 / 2, 203 / 2] [107 / 10, 511 / 2] =
      .ok { start_address := 99, no_of_channels := 2, data_values_converted := [10, 255] } := by
    simpa [f1, f2, f3] using h.1
  refine ⟨hacc, ?_, ?_, ?_⟩
  · simpa [f2] using h.2.2.1 (107 / 10) (by simp)
  · simpa [f1] using h.2.1 (201 / 2) (by simp)
  · simpa [f2, f3] using h.2.2.2 (by rfl) (by rfl) _ hacc

/-- C13, as stated, fails: the addresses 3000000000 and 3000000001 pass the checks `send`
implements, both are converted to 65535, and the channel count computed in 16-bit
arithmetic is 1, not 2; one byte is sent. -/
theorem send_count_counterexample :
    channelRange [mxString "send", mxVector false [3000000000, 3000000001],
        mxVector false [1, 2]] =
      .ok { start_address := 65535, no_of_channels := 1, data_values_converted := [1, 2] } ∧
    (1 : Int) ≠ ([3000000000, 3000000001] : List Int).length ∧
    transferredPayload (mexFunction okDriver [mxString "send",
      mxVector false [3000000000, 3000000001], mxVector false [1, 2]]).calls = some [1] :=
  ⟨rfl, by decide, rfl⟩

/-- C13, amended: for integer addresses that fit a signed 32-bit integer and pass the
checks `send` implements (equal lengths, `1 ≤ n ≤ 512`, every step exactly 1), also when
they lie outside `[1, 512]` and the converted address wraps around, the channel count
computed in 16-bit arithmetic is `n`.  So the run on the two 512-element arrays with every
access checked goes through: every index is one of its array, every cell read was written,
and the control transfer, with `BufferLength = n`, reads exactly the `n` bytes written into
`data_values_converted`. -/
theorem send_count_is_length (usb : Driver) (ca cv : Bool) (a v : List Int)
    (hlen : v.length = a.length) (h1 : 1 ≤ a.length) (h512 : a.length ≤ 512)
    (hstep : ∀ i, i < a.length → 1 ≤ i → a.getD i 0 - a.getD (i - 1) 0 = 1)
    (hfits : ∀ x ∈ a, -2147483648 ≤ x ∧ x ≤ 2147483647) :
    ∃ r, channelRange [mxString "send", mxVector ca a, mxVector cv v] = .ok r ∧
      r.no_of_channels = a.length ∧
      r.data_values_converted.length = a.length ∧
      convertChecked (mxVector ca a) (mxVector cv v) =
        some (r.start_address, r.no_of_channels, r.data_values_converted) ∧
      (usb.LstK_Init = true → usb.LstK_FindByVidPid UDMX_VENDOR_ID UDMX_PRODUCT_ID = true →
        usb.Usb_Init = true →
        ∃ Pkt, UsbCall.UsbK_ControlTransfer Pkt r.data_values_converted a.length ∈
          (mexFunction usb [mxString "send", mxVector ca a, mxVector cv v]).calls) := by
  have hstep2 : ∀ i, 1 ≤ i → i < a.length → a.getD i 0 - a.getD (i - 1) 0 = 1 :=
    fun i hi hn => hstep i hn hi
  have hacc : channelRange [mxString "send", mxVector ca a, mxVector cv v] =
      .ok (convert (mxVector ca a) (mxVector cv v)) := by
    rw [channelRange_mxVector_ok]
    exact ⟨hlen.symm, h512, h1, hstep2, rfl⟩
  have hcount := convert_no_of_channels ca cv a v h1 h512 hstep2 hfits
  have hdata : (convert (mxVector ca a) (mxVector cv v)).data_values_converted.length =
      a.length := by
    rw [convert_data_values_converted ca cv a v hlen, List.length_map, hlen]
  have hmod : (a.length : Int) % 4294967296 = a.length := by omega
  have hchecked := convertChecked_eq (mxVector ca a) (mxVector cv v)
    (by rw [mxGetNumberOfElements_mxVector]; exact h1)
    (by rw [mxGetNumberOfElements_mxVector]; exact h512)
    (by rw [mxGetNumberOfElements_mxVector]; exact hcount)
  refine ⟨_, hacc, hcount, hdata, hchecked, ?_⟩
  intro hinit hfind hopen
  have hrun := mexFunction_send_accepted usb _ _ hacc hinit hfind hopen
  refine ⟨setupPacket (convert (mxVector ca a) (mxVector cv v)).no_of_channels
    (convert (mxVector ca a) (mxVector cv v)).start_address, ?_⟩
  rw [hrun, hcount, hmod]
  simp

/-- C13 amended, witness: the addresses 0, 1, 2.  The converted start address wraps to
65535, the end address is 1, and the count is 3. -/
theorem send_count_is_length_witness :
    channelRange [mxString "send", mxVector false [0, 1, 2], mxVector false [7, 8, 9]] =
      .ok { start_address := 65535, no_of_channels := 3, data_values_converted := [7, 8, 9] } ∧
    ∃ r, channelRange [mxString "send", mxVector false [0, 1, 2], mxVector false [7, 8, 9]] =
        .ok r ∧
      r.no_of_channels = ([0, 1, 2] : List Int).length ∧
      r.data_values_converted.length = ([0, 1, 2] : List Int).length ∧
      convertChecked (mxVector false [0, 1, 2]) (mxVector false [7, 8, 9]) =
        some (r.start_address, r.no_of_channels, r.data_values_converted) ∧
      (okDriver.LstK_Init = true →
        okDriver.LstK_FindByVidPid UDMX_VENDOR_ID UDMX_PRODUCT_ID = true →
        okDriver.Usb_Init = true →
        ∃ Pkt, UsbCall.UsbK_ControlTransfer Pkt r.data_values_converted
            ([0, 1, 2] : List Int).length ∈
          (mexFunction okDriver
            [mxString "send", mxVector false [0, 1, 2], mxVector false [7, 8, 9]]).calls) :=
  ⟨rfl, send_count_is_length okDriver false false [0, 1, 2] [7, 8, 9] (by decide) (by decide)
    (by decide) (by decide) (by decide)⟩

end UDmx
